import Mathlib

/-!
Verification development for the "dodled-jump" arcade platform jumper
(src/main.ts).  The source file contains two concatenated revisions of the
game; the later revision (the one defining `globalPlatformCounter`,
per-cube platforms, glitch/explosion effects and the high-score store) is
the program the specification describes, and it is the one embedded here.

Numbers are modelled as exact rationals (the source uses IEEE doubles; all
constants appearing in the simulation core are short decimal literals that
are exactly representable as rationals, and every claim under examination
is about the algebraic structure of the update, not float rounding).
Rendering-only machinery (Three.js meshes, materials, DOM, audio, the
ambient star particle buffers) is not part of the simulated state; the one
render-side quantity that a claim mentions, the glitch shader uniforms, is
modelled separately over the reals.

Randomness (`Math.random()` calls) is modelled by explicit real/rational
draw arguments, one per call site; draws that only feed cosmetic quantities
(cube mesh rotations, explosion particle angles, spin axis) do not affect
any simulated field and are omitted.
-/

namespace DodledJump

section RatKernelReduction

/- Batteries seals the ℚ field operations; reopen them for this
development so that concrete states evaluate inside `decide`. -/
attribute [local semireducible] Rat.add Rat.mul Rat.inv Rat.sub
  Rat.ofScientific

/-! ## Constants (fields of `gameState` and module constants in the source) -/

/-- gameState.baseGravity = -0.006 -/
def baseGravity : ℚ := -(6/1000)

/-- gameState.jumpVelocity = 0.25 -/
def jumpVelocity : ℚ := (25/100)

/-- gameState.doubleJumpVelocity = 0.22 -/
def doubleJumpVelocity : ℚ := (22/100)

/-- gameState.moveSpeed = 0.15 -/
def moveSpeed : ℚ := (15/100)

/-- gameState.player.radius = 0.5 -/
def playerRadius : ℚ := (5/10)

/-- gameState.player.spinSpeed = 0.015 -/
def spinSpeed : ℚ := (15/1000)

/-- gameState.world.smoothing = 0.05 -/
def worldSmoothing : ℚ := (5/100)

/-- gameState.glitch.maxDuration = 0.35 -/
def glitchMaxDuration : ℚ := (35/100)

/-- gameState.introAnimation.duration = 0.6 -/
def introDuration : ℚ := (6/10)

/-- gameState.introAnimation.delay = 0.2 -/
def introDelay : ℚ := (2/10)

/-- The fixed per-tick time step: every `+= 0.016` in updateGame. -/
def dt : ℚ := (16/1000)

/-- const ENABLE_CUBE_FALLING = true -/
def ENABLE_CUBE_FALLING : Bool := true

/-! ## Difficulty model (pure functions of the current score) -/

/-- function getDifficultyMovementChance() -/
def getDifficultyMovementChance (score : ℕ) : ℚ :=
  if score < 5 then 0
  else if score ≤ 10 then
    let t := ((score : ℚ) - 5) / (10 - 5)
    (12/100) + t * ((2/10) - (12/100))
  else if score ≤ 25 then
    let t := ((score : ℚ) - 10) / (25 - 10)
    (2/10) + t * ((35/100) - (2/10))
  else if score ≤ 50 then
    let t := ((score : ℚ) - 25) / (50 - 25)
    (35/100) + t * ((55/100) - (35/100))
  else if score ≤ 75 then
    let t := ((score : ℚ) - 50) / (75 - 50)
    (55/100) + t * ((7/10) - (55/100))
  else (8/10)

/-- function getDifficultyMovementSpeed() -/
def getDifficultyMovementSpeed (score : ℕ) : ℚ :=
  if score < 5 then 0
  else if score ≤ 15 then
    let t := ((score : ℚ) - 5) / (15 - 5)
    (3/1000) + t * ((8/1000) - (3/1000))
  else if score ≤ 35 then
    let t := ((score : ℚ) - 15) / (35 - 15)
    (8/1000) + t * ((15/1000) - (8/1000))
  else if score ≤ 60 then
    let t := ((score : ℚ) - 35) / (60 - 35)
    (15/1000) + t * ((25/1000) - (15/1000))
  else (25/1000)

/-- function getDifficultyPlatformSpacing() -/
def getDifficultyPlatformSpacing (score : ℕ) : ℚ :=
  if score ≤ 15 then
    let t := (score : ℚ) / 15
    (35/10) + t * ((38/10) - (35/10))
  else if score ≤ 30 then
    let t := ((score : ℚ) - 15) / (30 - 15)
    (38/10) + t * ((4 : ℚ) - (38/10))
  else if score ≤ 50 then
    let t := ((score : ℚ) - 30) / (50 - 30)
    (4 : ℚ) + t * ((42/10) - (4 : ℚ))
  else (42/10)

/-- function getDifficultyPlatformCubeCount(), with the `Math.random()` draw
passed explicitly.  Polymorphic over the ordered field carrying the draw so
the same definition serves the executable game model (at ℚ) and the
expectation analysis (at ℝ). -/
def getDifficultyPlatformCubeCount {K : Type*} [LinearOrderedField K]
    (score : ℕ) (random : K) : ℕ :=
  if score ≤ 10 then
    let chance4 : K := (8/10) - ((score : K) / 10) * (3/10)
    if random < chance4 then 4 else 3
  else if score ≤ 25 then
    let t : K := ((score : K) - 10) / (25 - 10)
    let chance4 := (5/10) - t * (4/10)
    if random < chance4 then 4 else 3
  else if score ≤ 40 then
    let t : K := ((score : K) - 25) / (40 - 25)
    let chance3 := (9/10) - t * (4/10)
    if random < chance3 then 3 else 2
  else if score ≤ 60 then
    let t : K := ((score : K) - 40) / (60 - 40)
    let chance3 := (5/10) - t * (4/10)
    if random < chance3 then 3 else 2
  else if score ≤ 80 then
    let t : K := ((score : K) - 60) / (80 - 60)
    let chance2 := (9/10) - t * (4/10)
    if random < chance2 then 2 else 1
  else
    let t : K := min 1 (((score : K) - 80) / 40)
    let chance2 := (5/10) - t * (3/10)
    if random < chance2 then 2 else 1

/-- function getDifficultyGravity() -/
def getDifficultyGravity (score : ℕ) : ℚ :=
  let gravityReduction := min (1/1000) (((score : ℚ) / 60) * (1/1000))
  baseGravity + gravityReduction

/-! ## Data model -/

/-- One platform segment ("cube").  `green` is the mesh's material state
(false = gray material, true = green material). -/
structure Cube where
  posX : ℚ
  posY : ℚ
  isHit : Bool
  falling : Bool
  fallVelocity : ℚ
  green : Bool
  deriving Repr, DecidableEq

/-- A platform's movement descriptor. -/
structure Movement where
  enabled : Bool
  direction : ℚ
  speed : ℚ
  range : ℚ
  centerX : ℚ
  deriving Repr, DecidableEq

/-- A platform: a row of cubes sharing one movement descriptor. -/
structure Platform where
  posX : ℚ
  posY : ℚ
  width : ℚ
  height : ℚ
  cubes : List Cube
  platformIndex : ℕ
  movement : Movement
  deriving Repr, DecidableEq

/-- The player record of `gameState.player` (spin axis is render-only). -/
structure Player where
  posX : ℚ
  posY : ℚ
  velX : ℚ
  velY : ℚ
  radius : ℚ
  onGround : Bool
  doubleJumpAvailable : Bool
  hasDoubleJumped : Bool
  spinning : Bool
  spinProgress : ℚ
  deriving Repr, DecidableEq

/-- The glitch envelope of `gameState.glitch`. -/
structure Glitch where
  active : Bool
  intensity : ℚ
  digitalNoise : ℚ
  rgbShift : ℚ
  duration : ℚ
  maxDuration : ℚ
  deriving Repr, DecidableEq

/-- One explosion burst.  The per-particle position/velocity buffers are
render-side `Float32Array`s; the simulated fields are the lifetime clock. -/
structure Explosion where
  life : ℚ
  maxLife : ℚ
  deriving Repr, DecidableEq

/-- The world-offset scroller of `gameState.world`. -/
structure World where
  offset : ℚ
  targetOffset : ℚ
  deriving Repr, DecidableEq

/-- The intro animation state of `gameState.introAnimation`. -/
structure Intro where
  active : Bool
  progress : ℚ
  delayProgress : ℚ
  deriving Repr, DecidableEq

/-- The simulated game state (the mutable fields of `gameState` together
with the module-level `globalPlatformCounter`). -/
structure GameState where
  gameStarted : Bool
  intro : Intro
  player : Player
  world : World
  glitch : Glitch
  platforms : List Platform
  explosions : List Explosion
  nextPlatformY : ℚ
  score : ℕ
  highScore : ℕ
  globalPlatformCounter : ℕ
  deriving Repr, DecidableEq

/-! ## High score -/

/-- function updateHighScore(currentScore): returns the new stored high
score (the localStorage write is an external effect). -/
def updateHighScore (currentScore highScore : ℕ) : ℕ :=
  if currentScore > highScore then currentScore else highScore

/-! ## World generator -/

/-- function createPlatform(x, y) (later revision): builds the platform
record.  `score` is `gameState.score`, `V` the viewport half-width read
from the camera, `rCube` the `Math.random()` draw inside
getDifficultyPlatformCubeCount, `counter` the current
`globalPlatformCounter`.  Returns the platform and the bumped counter. -/
def createPlatform (score : ℕ) (V rCube : ℚ) (counter : ℕ) (x y : ℚ) :
    Platform × ℕ :=
  let movementSpeed := getDifficultyMovementSpeed score
  let cubeCount := getDifficultyPlatformCubeCount score rCube
  let movementRange := V * 2
  let cubeSize : ℚ := 1
  let cubeSpacing : ℚ := (11/10)
  let platformWidth := (cubeCount : ℚ) * cubeSpacing
  let platformIndex := counter
  let cubes := (List.range cubeCount).map (fun i =>
    { posX := x + ((i : ℚ) - ((cubeCount : ℚ) - 1) / 2) * cubeSpacing
      posY := y
      isHit := false
      falling := false
      fallVelocity := 0
      green := false : Cube })
  ({ posX := x
     posY := y
     width := platformWidth
     height := cubeSize
     cubes := cubes
     platformIndex := platformIndex
     movement :=
       { enabled := false
         direction := if platformIndex % 2 = 0 then 1 else -1
         speed := movementSpeed
         range := movementRange
         centerX := x } }, counter + 1)

/-- The `gameState.platforms.push(platform)` effect of createPlatform. -/
def createPlatformS (V rCube x y : ℚ) (s : GameState) : GameState :=
  let pc := createPlatform s.score V rCube s.globalPlatformCounter x y
  { s with platforms := s.platforms ++ [pc.1], globalPlatformCounter := pc.2 }

/-- One iteration of the while loop of generatePlatforms(): spawn one
platform at a random x (`r.1` draw) at nextPlatformY, then advance
nextPlatformY by the current difficulty spacing.  `r.2` is the cube-count
draw. -/
def genStep (V : ℚ) (r : ℚ × ℚ) (s : GameState) : GameState :=
  let x := (r.1 - (5/10)) * (V * (18/10))
  let s1 := createPlatformS V r.2 x s.nextPlatformY s
  { s1 with nextPlatformY :=
      s1.nextPlatformY + getDifficultyPlatformSpacing s1.score }

/-- The while loop of generatePlatforms(), with fuel.  `rands n` supplies
the pair (x draw, cube-count draw) for the iteration with fuel `n`. -/
def generatePlatformsAux (V : ℚ) (rands : ℕ → ℚ × ℚ) :
    ℕ → GameState → GameState
  | 0, s => s
  | n + 1, s =>
    if s.platforms.length < 15 then
      generatePlatformsAux V rands n (genStep V (rands n) s)
    else s

/-- function generatePlatforms(): while fewer than 15 platforms, spawn one
at a random x at nextPlatformY and advance nextPlatformY by the current
difficulty spacing.  Each iteration adds exactly one platform, so
`15 - length` fuel completes the loop. -/
def generatePlatforms (V : ℚ) (rands : ℕ → ℚ × ℚ) (s : GameState) :
    GameState :=
  generatePlatformsAux V rands (15 - s.platforms.length) s

/-! ## Effects -/

/-- function triggerGlitch(), with the three `Math.random()` draws passed
explicitly. -/
def triggerGlitch (rI rN rR : ℚ) (g : Glitch) : Glitch :=
  { g with
    active := true
    duration := 0
    intensity := (8/10) + rI * (6/10)
    digitalNoise := (3/10) + rN * (25/100)
    rgbShift := (8/10) + rR * (6/10) }

/-- function createExplosion(x, y, color): the simulated effect is pushing
a burst with life 0 and maxLife 0.8 (particle buffers are render-side). -/
def createExplosion : Explosion :=
  { life := 0, maxLife := (8/10) }

/-- function startBackspin() (the random spin axis is render-only). -/
def startBackspin (p : Player) : Player :=
  { p with spinning := true, spinProgress := 0 }

/-- function updateBackspin(): advance spin progress, return to idle once
progress reaches 1. -/
def updateBackspin (p : Player) : Player :=
  if p.spinning then
    let p1 := { p with spinProgress := p.spinProgress + spinSpeed }
    if p1.spinProgress ≥ 1 then
      { p1 with spinning := false, spinProgress := 0 }
    else p1
  else p

/-- The glitch block of updateGame(), state part: advance the clock and
fall back to idle once progress reaches 1.  (The shader uniform outputs
are modelled by `updateGlitchUniforms` below.) -/
def updateGlitchState (g : Glitch) : Glitch :=
  if g.active then
    let g1 := { g with duration := g.duration + dt }
    if g1.duration / g1.maxDuration ≥ 1 then { g1 with active := false }
    else g1
  else g

/-- The explosion block of updateGame(): advance each life clock and remove
expired bursts (the backwards-splice loop of the source is a filter). -/
def updateExplosions (es : List Explosion) : List Explosion :=
  (es.map (fun e => { e with life := e.life + dt })).filter
    (fun e => decide (e.life < e.maxLife))

/-- The world-offset block of updateGame(): low-pass filter toward
`-player.y`. -/
def updateWorld (playerY : ℚ) (w : World) : World :=
  { offset := w.offset + (-playerY - w.offset) * worldSmoothing
    targetOffset := -playerY }

/-! ## Collision engine -/

/-- The axis-aligned overlap test of checkPlatformCollision for a single
cube (cube is 1×1, player a circle of radius `radius` projected onto the
axes). -/
def cubeOverlap (px py radius : ℚ) (c : Cube) : Bool :=
  let cubeLeft := c.posX - (5/10)
  let cubeRight := c.posX + (5/10)
  let cubeTop := c.posY + (5/10)
  let cubeBottom := c.posY - (5/10)
  decide (px + radius > cubeLeft) && decide (px - radius < cubeRight) &&
  decide (py - radius ≤ cubeTop) && decide (py - radius ≥ cubeBottom)

/-- The inner cube loop of checkPlatformCollision: find the first
overlapping cube, mark it hit if it was not already (green material,
begin falling, record that the hit is new), and report the cube's top
face.  Returns `none` when no cube of the list overlaps. -/
def scanCubes (px py radius : ℚ) : List Cube → Option (List Cube × ℚ × Bool)
  | [] => none
  | c :: cs =>
    if cubeOverlap px py radius c then
      let newHit := !c.isHit
      let c1 :=
        if c.isHit then c
        else { c with
               isHit := true
               green := true
               falling := ENABLE_CUBE_FALLING
               fallVelocity := 0 }
      some (c1 :: cs, (c.posY + (5/10), newHit))
    else
      match scanCubes px py radius cs with
      | some (cs1, r) => some (c :: cs1, r)
      | none => none

/-- The outer platform loop of checkPlatformCollision: first platform whose
cube list yields a hit. -/
def scanPlatforms (px py radius : ℚ) :
    List Platform → Option (List Platform × ℚ × Bool)
  | [] => none
  | pf :: pfs =>
    match scanCubes px py radius pf.cubes with
    | some (cs, r) => some ({ pf with cubes := cs } :: pfs, r)
    | none =>
      match scanPlatforms px py radius pfs with
      | some (pfs1, r) => some (pf :: pfs1, r)
      | none => none

/-- function checkPlatformCollision().  Only runs while falling
(velocity.y ≤ 0); resolves against the first overlapping cube: on a new
hit increments the score and updates the high score, then always snaps the
player, resets velocity.y to the jump velocity, restores the double jump,
pushes an explosion, triggers the glitch, and spins with 20% chance
(`rSpin` draw).  `rI rN rR` are the glitch trigger draws. -/
def checkPlatformCollision (rI rN rR rSpin : ℚ) (s : GameState) : GameState :=
  if s.player.velY > 0 then s
  else
    match scanPlatforms s.player.posX s.player.posY s.player.radius
        s.platforms with
    | none => s
    | some (pfs, cubeTop, newHit) =>
      let score1 := if newHit then s.score + 1 else s.score
      let highScore1 :=
        if newHit then updateHighScore score1 s.highScore else s.highScore
      let player1 :=
        { s.player with
          velY := jumpVelocity
          onGround := true
          posY := cubeTop + s.player.radius
          doubleJumpAvailable := true
          hasDoubleJumped := false }
      let player2 := if rSpin < (2/10) then startBackspin player1 else player1
      { s with
        platforms := pfs
        score := score1
        highScore := highScore1
        player := player2
        explosions := s.explosions ++ [createExplosion]
        glitch := triggerGlitch rI rN rR s.glitch }

/-- The intro-fall collision block inside updateGame() (same scan; ends the
intro, starts the game, snaps and relaunches the player, but does not set
the on-ground flag and never spins). -/
def introCollision (rI rN rR : ℚ) (s : GameState) : GameState :=
  if s.player.velY > 0 then s
  else
    match scanPlatforms s.player.posX s.player.posY s.player.radius
        s.platforms with
    | none => s
    | some (pfs, cubeTop, newHit) =>
      let score1 := if newHit then s.score + 1 else s.score
      let highScore1 :=
        if newHit then updateHighScore score1 s.highScore else s.highScore
      { s with
        intro := { s.intro with active := false }
        gameStarted := true
        platforms := pfs
        score := score1
        highScore := highScore1
        player :=
          { s.player with
            posY := cubeTop + s.player.radius
            velY := jumpVelocity
            doubleJumpAvailable := true
            hasDoubleJumped := false }
        explosions := s.explosions ++ [createExplosion]
        glitch := triggerGlitch rI rN rR s.glitch }

/-! ## Simulation driver: the phases of updateGame(), in source order -/

/-- Per-tick runtime inputs: the viewport half-width `V` (computed in the
source from camera fov/aspect/distance each tick), the normalized input
surface, and the random draws consumed this tick. -/
structure TickInput where
  V : ℚ
  left : Bool
  right : Bool
  jumpPressed : Bool
  rI : ℚ
  rN : ℚ
  rR : ℚ
  rSpin : ℚ
  genRands : ℕ → ℚ × ℚ
  resetCube : ℚ
  resetRands : ℕ → ℚ × ℚ

/-- Horizontal input / friction decay. -/
def inputPhase (left right : Bool) (p : Player) : Player :=
  if left then { p with velX := -moveSpeed }
  else if right then { p with velX := moveSpeed }
  else { p with velX := p.velX * (9/10) }

/-- Edge-triggered double jump. -/
def doubleJumpPhase (jumpPressed : Bool) (p : Player) : Player :=
  if jumpPressed && p.doubleJumpAvailable && !p.hasDoubleJumped then
    startBackspin
      { p with
        velY := doubleJumpVelocity
        hasDoubleJumped := true
        doubleJumpAvailable := false }
  else p

/-- Gravity application. -/
def gravityPhase (score : ℕ) (p : Player) : Player :=
  { p with velY := p.velY + getDifficultyGravity score }

/-- Position integration. -/
def integratePhase (p : Player) : Player :=
  { p with posX := p.posX + p.velX, posY := p.posY + p.velY }

/-- Horizontal screen wrap at the viewport edges. -/
def wrapPhase (V : ℚ) (p : Player) : Player :=
  if p.posX > V then { p with posX := -V }
  else if p.posX < -V then { p with posX := V }
  else p

/-- The falling-cube update inside the platform loop of updateGame(). -/
def updateCubeFall (score : ℕ) (c : Cube) : Cube :=
  if ENABLE_CUBE_FALLING && c.falling then
    let v := c.fallVelocity + getDifficultyGravity score
    { c with fallVelocity := v, posY := c.posY + v }
  else c

/-- The hashed movement-enable decision:
`(platformIndex * 2654435761) % 1000 < movementChance * 1000`. -/
def hashMovementEnabled (idx : ℕ) (chance : ℚ) : Bool :=
  decide ((((idx * 2654435761) % 1000 : ℕ) : ℚ) < chance * 1000)

/-- The per-platform body of the platform loop of updateGame(): falling
cubes integrate, the movement flag/speed are refreshed from the difficulty
model (once score ≥ 5), and enabled platforms step sideways with
viewport-bound and range clamping, repositioning their cubes. -/
def updatePlatform (score : ℕ) (V : ℚ) (pf : Platform) : Platform :=
  let pf1 := { pf with cubes := pf.cubes.map (updateCubeFall score) }
  let pf2 :=
    if 5 ≤ score then
      { pf1 with movement :=
          { pf1.movement with
            enabled := hashMovementEnabled pf1.platformIndex
                (getDifficultyMovementChance score)
            speed := getDifficultyMovementSpeed score } }
    else
      { pf1 with movement := { pf1.movement with enabled := false } }
  if pf2.movement.enabled then
    let platformHalfWidth := pf2.width / 2
    let maxX := V - platformHalfWidth
    let minX := -V + platformHalfWidth
    let x1 := pf2.posX + pf2.movement.direction * pf2.movement.speed
    let xd :=
      if x1 > maxX then (maxX, (-1 : ℚ))
      else if x1 < minX then (minX, (1 : ℚ))
      else
        let distanceFromCenter := |x1 - pf2.movement.centerX|
        if distanceFromCenter ≥ pf2.movement.range then
          let dir1 := pf2.movement.direction * (-1)
          let xc := pf2.movement.centerX + dir1 * (-1) * pf2.movement.range
          if xc > maxX then (maxX, (-1 : ℚ))
          else if xc < minX then (minX, (1 : ℚ))
          else (xc, dir1)
        else (x1, pf2.movement.direction)
    let pf3 :=
      { pf2 with
        posX := xd.1
        movement := { pf2.movement with direction := xd.2 } }
    let n := pf3.cubes.length
    { pf3 with cubes := pf3.cubes.mapIdx (fun i c =>
        { c with posX := pf3.posX + ((i : ℚ) - ((n : ℚ) - 1) / 2) * (11/10) }) }
  else pf2

/-- The generation block of updateGame(). -/
def generationPhase (V : ℚ) (rands : ℕ → ℚ × ℚ) (s : GameState) : GameState :=
  if s.player.posY > s.nextPlatformY - 20 then generatePlatforms V rands s
  else s

/-- The pruning block of updateGame(): drop platforms fallen more than 15
units below the player. -/
def prunePhase (s : GameState) : GameState :=
  { s with platforms :=
      s.platforms.filter (fun pf => decide (¬ pf.posY < s.player.posY - 15)) }

/-- The game-over reset body of updateGame(): reset all mutable state,
clear and regenerate platforms (starting platform at (0,-2)), clear
explosions.  The high score is not touched. -/
def resetGame (V rCube0 : ℚ) (rands : ℕ → ℚ × ℚ) (s : GameState) : GameState :=
  let s1 :=
    { s with
      gameStarted := false
      intro := { active := false, progress := 0, delayProgress := 0 }
      player :=
        { s.player with
          posX := 0
          posY := 0
          velX := 0
          velY := 0
          spinning := false
          spinProgress := 0
          doubleJumpAvailable := false
          hasDoubleJumped := false }
      score := 0
      world := { offset := 0, targetOffset := 0 }
      platforms := []
      nextPlatformY := 2
      globalPlatformCounter := 0
      explosions := [] }
  let s2 := createPlatformS V rCube0 0 (-2) s1
  generatePlatforms V rands s2

/-- The game-over check of updateGame(). -/
def gameOverPhase (V rCube0 : ℚ) (rands : ℕ → ℚ × ℚ) (s : GameState) :
    GameState :=
  if s.player.posY + s.world.offset < -10 then resetGame V rCube0 rands s
  else s

/-- The fall-and-progress part of the intro branch of updateGame() (after
the delay): gravity-driven fall and the time-based completion check. -/
def introPhysics (s : GameState) : GameState :=
  let p1 := { s.player with velY := s.player.velY + getDifficultyGravity s.score }
  let p2 := { p1 with posY := p1.posY + p1.velY }
  let s1 := { s with player := p2 }
  let s2 :=
    { s1 with intro :=
        { s1.intro with progress := s1.intro.progress + dt / introDuration } }
  if s2.intro.progress ≥ 1 then
    { s2 with intro := { s2.intro with active := false }, gameStarted := true }
  else s2

/-- The intro branch of updateGame(): during the start delay only the delay
clock advances; afterwards gravity-driven fall, time-based completion, and
the early-exit platform collision. -/
def introTick (inp : TickInput) (s : GameState) : GameState :=
  if s.intro.delayProgress < introDelay then
    { s with intro :=
        { s.intro with delayProgress := s.intro.delayProgress + dt } }
  else
    introCollision inp.rI inp.rN inp.rR (introPhysics s)

/-- The physics phases of updateGame() before collision resolution, in
source order: input/friction, double jump, gravity, integration, wrap. -/
def physicsPhases (inp : TickInput) (s : GameState) : GameState :=
  let p1 := inputPhase inp.left inp.right s.player
  let p2 := doubleJumpPhase inp.jumpPressed p1
  let p3 := gravityPhase s.score p2
  let p4 := integratePhase p3
  let p5 := wrapPhase inp.V p4
  { s with player := p5 }

/-- The collision call of updateGame(). -/
def collisionPhase (inp : TickInput) (s : GameState) : GameState :=
  checkPlatformCollision inp.rI inp.rN inp.rR inp.rSpin s

/-- The onGround reset after collision. -/
def onGroundResetPhase (s : GameState) : GameState :=
  { s with player := { s.player with onGround := false } }

/-- The updateBackspin() call of updateGame(). -/
def spinPhase (s : GameState) : GameState :=
  { s with player := updateBackspin s.player }

/-- The glitch block of updateGame() (state part). -/
def glitchPhase (s : GameState) : GameState :=
  { s with glitch := updateGlitchState s.glitch }

/-- The explosion block of updateGame(). -/
def explosionPhase (s : GameState) : GameState :=
  { s with explosions := updateExplosions s.explosions }

/-- The world-offset block of updateGame(). -/
def worldPhase (s : GameState) : GameState :=
  { s with world := updateWorld s.player.posY s.world }

/-- The platform loop of updateGame(). -/
def platformLoopPhase (V : ℚ) (s : GameState) : GameState :=
  { s with platforms := s.platforms.map (updatePlatform s.score V) }

/-- The phases of updateGame() after collision resolution and before the
game-over check, in source order: on-ground reset, spin update, glitch
decay, explosion update, world-offset follow, platform loop, generation,
pruning. -/
def postCollisionPhases (inp : TickInput) (s2 : GameState) : GameState :=
  prunePhase (generationPhase inp.V inp.genRands (platformLoopPhase inp.V
    (worldPhase (explosionPhase (glitchPhase (spinPhase
      (onGroundResetPhase s2)))))))

/-- The playing-state phases of updateGame() up to (and excluding) the
game-over check. -/
def playingPhases (inp : TickInput) (s : GameState) : GameState :=
  postCollisionPhases inp (collisionPhase inp (physicsPhases inp s))

/-- function updateGame(), restricted to the simulated state: the intro
branch, the not-started early return, and the playing-state pipeline
followed by the game-over check. -/
def updateGameTick (inp : TickInput) (s : GameState) : GameState :=
  if s.intro.active then introTick inp s
  else if !s.gameStarted then s
  else
    gameOverPhase inp.V inp.resetCube inp.resetRands (playingPhases inp s)

/-! ## Glitch shader uniforms (the render-side outputs of the glitch block)

The glitch block of updateGame() also writes the three `glitchPass`
uniforms, real-valued quantities involving `Math.pow(progress, 1.8)` and
`Math.sin`; they are modelled here over ℝ. -/

/-- The three glitchPass uniforms consumed by the post-processing
pipeline. -/
structure GlitchUniforms where
  glitchIntensity : ℝ
  digitalNoiseIntensity : ℝ
  rgbShiftIntensity : ℝ

/-- The eased falloff of the glitch block:
`easeOut = 1 - progress^1.8`, then `easeOut *= sin(progress*20)*0.1 + 0.9`. -/
noncomputable def glitchEaseOut (progress : ℝ) : ℝ :=
  (1 - progress ^ ((18/10) : ℝ)) * (Real.sin (progress * (20)) * (1/10) + (9/10))

/-- The full glitch block of updateGame(): the state update of
`updateGlitchState` together with the uniform writes.  While idle the
uniforms keep their previous values (the source does not touch them). -/
noncomputable def updateGlitchUniforms (g : Glitch) (u : GlitchUniforms) :
    Glitch × GlitchUniforms :=
  if g.active then
    let g1 := { g with duration := g.duration + dt }
    let progress : ℚ := g1.duration / g1.maxDuration
    if progress ≥ 1 then
      ({ g1 with active := false },
       { glitchIntensity := 0, digitalNoiseIntensity := 0,
         rgbShiftIntensity := 0 })
    else
      (g1,
       { glitchIntensity := (g.intensity : ℝ) * glitchEaseOut (progress : ℝ)
         digitalNoiseIntensity :=
           (g.digitalNoise : ℝ) * glitchEaseOut (progress : ℝ)
         rgbShiftIntensity := (g.rgbShift : ℝ) * glitchEaseOut (progress : ℝ) })
  else (g, u)

/-! ## Expected segment count

The expectation of getDifficultyPlatformCubeCount over the uniform draw on
[0,1). -/

/-- Expected cube count at a given score, the `Math.random()` draw being
uniform on [0,1). -/
noncomputable def expectedCubeCount (score : ℕ) : ℝ :=
  ∫ r in Set.Ico (0 : ℝ) 1, (getDifficultyPlatformCubeCount score r : ℝ)

/-! ## Observation helpers for the theorems -/

/-- Number of false→true transitions of the `isHit` flags between two
aligned cube lists. -/
def cubeFlips (old new : List Cube) : ℕ :=
  ((old.zip new).filter (fun p => !p.1.isHit && p.2.isHit)).length

/-- Number of false→true `isHit` transitions between two aligned platform
lists. -/
def hitFlips (old new : List Platform) : ℕ :=
  ((old.zip new).map (fun q => cubeFlips q.1.cubes q.2.cubes)).sum

/-- Between two aligned cube lists, a cube that was hit stays hit. -/
def cubesMono (old new : List Cube) : Prop :=
  ∀ p ∈ old.zip new, p.1.isHit = true → p.2.isHit = true

/-- Between two aligned platform lists, every hit cube stays hit. -/
def platsMono (old new : List Platform) : Prop :=
  ∀ q ∈ old.zip new, cubesMono q.1.cubes q.2.cubes

/-- Number of cubes changed in any way between two aligned cube lists. -/
def cubesChanged (old new : List Cube) : ℕ :=
  ((old.zip new).filter (fun p => p.1 ≠ p.2)).length

/-- Number of cubes changed in any way between two aligned platform
lists. -/
def platsCubesChanged (old new : List Platform) : ℕ :=
  ((old.zip new).map (fun q => cubesChanged q.1.cubes q.2.cubes)).sum

/-- The index well-formedness invariant: every live platform's creation
index is below the global counter, and live indices are pairwise
distinct. -/
def indexInvariant (s : GameState) : Prop :=
  (∀ pf ∈ s.platforms, pf.platformIndex < s.globalPlatformCounter) ∧
  (s.platforms.map (fun pf => pf.platformIndex)).Nodup

/-! ## Closed-form view of the segment-count distribution

For every score, getDifficultyPlatformCubeCount is a two-valued threshold
function of the draw; these give its threshold and its smaller value. -/

/-- The probability threshold of the active band (chance4/chance3/chance2
in the source). -/
def cubeThreshold (score : ℕ) : ℚ :=
  if score ≤ 10 then (8/10) - ((score : ℚ) / 10) * (3/10)
  else if score ≤ 25 then (5/10) - (((score : ℚ) - 10) / (25 - 10)) * (4/10)
  else if score ≤ 40 then (9/10) - (((score : ℚ) - 25) / (40 - 25)) * (4/10)
  else if score ≤ 60 then (5/10) - (((score : ℚ) - 40) / (60 - 40)) * (4/10)
  else if score ≤ 80 then (9/10) - (((score : ℚ) - 60) / (80 - 60)) * (4/10)
  else (5/10) - min 1 (((score : ℚ) - 80) / 40) * (3/10)

/-- The smaller of the two cube counts of the active band. -/
def cubeLo (score : ℕ) : ℕ :=
  if score ≤ 25 then 3 else if score ≤ 60 then 2 else 1

/-- The expected cube count in closed form: `lo + threshold` (the larger
value is always `lo + 1`). -/
def cubeCountMean (score : ℕ) : ℚ :=
  (cubeLo score : ℚ) + cubeThreshold score

/-! ## Test fixtures (concrete states used by witnesses and
counterexamples) -/

/-- A fresh, unhit cube at the origin. -/
def testCube : Cube :=
  { posX := 0, posY := 0, isHit := false, falling := false,
    fallVelocity := 0, green := false }

/-- An already-hit cube at the origin. -/
def testHitCube : Cube :=
  { posX := 0, posY := 0, isHit := true, falling := true,
    fallVelocity := 0, green := true }

/-- A static movement descriptor. -/
def testMovement : Movement :=
  { enabled := false, direction := 1, speed := 0, range := 0, centerX := 0 }

/-- A one-cube platform at the origin, creation index 0. -/
def testPlatform : Platform :=
  { posX := 0, posY := 0, width := (11/10), height := 1, cubes := [testCube],
    platformIndex := 0, movement := testMovement }

/-- The same platform with its cube already hit. -/
def testHitPlatform : Platform :=
  { testPlatform with cubes := [testHitCube] }

/-- A player falling onto the origin cube (standing exactly on its top
face, vertical velocity 0). -/
def testPlayer : Player :=
  { posX := 0, posY := 1, velX := 0, velY := 0, radius := (5/10),
    onGround := false, doubleJumpAvailable := false,
    hasDoubleJumped := false, spinning := false, spinProgress := 0 }

/-- An idle glitch envelope. -/
def testGlitch : Glitch :=
  { active := false, intensity := 0, digitalNoise := 0, rgbShift := 0,
    duration := 0, maxDuration := (35/100) }

/-- A started playing state with the test player about to land on the test
platform. -/
def testState : GameState :=
  { gameStarted := true
    intro := { active := false, progress := 0, delayProgress := 0 }
    player := testPlayer
    world := { offset := 0, targetOffset := 0 }
    glitch := testGlitch
    platforms := [testPlatform]
    explosions := []
    nextPlatformY := 2
    score := 0
    highScore := 0
    globalPlatformCounter := 1 }

/-- The same situation with the platform's only segment already hit. -/
def testHitState : GameState :=
  { testState with platforms := [testHitPlatform] }

/-- A player that has fallen far below the fall-out threshold. -/
def fallPlayer : Player :=
  { posX := 0, posY := -50, velX := 0, velY := 0, radius := (5/10),
    onGround := false, doubleJumpAvailable := false,
    hasDoubleJumped := false, spinning := false, spinProgress := 0 }

/-- A started playing state that has fallen far below the fall-out
threshold, so the game-over reset fires this tick. -/
def fallState : GameState :=
  { gameStarted := true
    intro := { active := false, progress := 0, delayProgress := 0 }
    player := fallPlayer
    world := { offset := 0, targetOffset := 0 }
    glitch := testGlitch
    platforms := [testPlatform]
    explosions := []
    nextPlatformY := 100
    score := 3
    highScore := 7
    globalPlatformCounter := 1 }

/-- A minimal state from which the generator runs a full batch. -/
def genState : GameState :=
  { gameStarted := true
    intro := { active := false, progress := 0, delayProgress := 0 }
    player := { testPlayer with posY := 0 }
    world := { offset := 0, targetOffset := 0 }
    glitch := testGlitch
    platforms := []
    explosions := []
    nextPlatformY := 0
    score := 0
    highScore := 0
    globalPlatformCounter := 0 }

/-- A decaying glitch envelope one step away from completion. -/
def testGlitchActive : Glitch :=
  { active := true, intensity := 1, digitalNoise := 1, rgbShift := 1,
    duration := 35/100, maxDuration := 35/100 }

/-- A decaying glitch envelope far from completion. -/
def testGlitchEarly : Glitch :=
  { active := true, intensity := 1, digitalNoise := 1, rgbShift := 1,
    duration := 0, maxDuration := 35/100 }

/-- Arbitrary non-zero uniform values. -/
noncomputable def testUniforms : GlitchUniforms :=
  { glitchIntensity := 5, digitalNoiseIntensity := 5, rgbShiftIntensity := 5 }

/-- Neutral per-tick inputs: viewport half-width 10, no keys, spin draw 1
(no spin), constant generator draws (0.5, 0). -/
def testInput : TickInput :=
  { V := 10
    left := false
    right := false
    jumpPressed := false
    rI := 0
    rN := 0
    rR := 0
    rSpin := 1
    genRands := fun _ => ((5/10), 0)
    resetCube := 0
    resetRands := fun _ => ((5/10), 0) }

/-! ### Self-comparison lemmas -/

theorem mem_zip_self {α : Type*} {l : List α} {p : α × α}
    (hp : p ∈ l.zip l) : p.1 = p.2 := by
  induction l with
  | nil => simp at hp
  | cons a l ih =>
    simp only [List.zip_cons_cons, List.mem_cons] at hp
    rcases hp with h | h
    · subst h; rfl
    · exact ih h

theorem cubeFlips_self (cs : List Cube) : cubeFlips cs cs = 0 := by
  unfold cubeFlips
  rw [List.length_eq_zero, List.filter_eq_nil_iff]
  intro p hp
  rw [mem_zip_self hp]
  cases p.2.isHit <;> simp

theorem hitFlips_self (pfs : List Platform) : hitFlips pfs pfs = 0 := by
  unfold hitFlips
  apply List.sum_eq_zero
  intro x hx
  rcases List.mem_map.mp hx with ⟨q, hq, rfl⟩
  rw [mem_zip_self hq]
  exact cubeFlips_self _

theorem cubesChanged_self (cs : List Cube) : cubesChanged cs cs = 0 := by
  unfold cubesChanged
  rw [List.length_eq_zero, List.filter_eq_nil_iff]
  intro p hp
  simp [mem_zip_self hp]

theorem cubesMono_self (cs : List Cube) : cubesMono cs cs := by
  intro p hp h
  rw [← mem_zip_self hp]
  exact h

/-! ### Cons-decomposition lemmas -/

theorem cubeFlips_cons (c d : Cube) (cs ds : List Cube) :
    cubeFlips (c :: cs) (d :: ds) =
      (if (!c.isHit && d.isHit) = true then 1 else 0) + cubeFlips cs ds := by
  cases h : (!c.isHit && d.isHit) <;>
    simp [cubeFlips, List.zip_cons_cons, List.filter_cons, h, Nat.add_comm]

theorem cubesChanged_cons (c d : Cube) (cs ds : List Cube) :
    cubesChanged (c :: cs) (d :: ds) =
      (if c = d then 0 else 1) + cubesChanged cs ds := by
  by_cases h : c = d <;>
    simp [cubesChanged, List.zip_cons_cons, List.filter_cons, h, Nat.add_comm]

theorem cubesMono_cons {c d : Cube} {cs ds : List Cube}
    (hhd : c.isHit = true → d.isHit = true) (htl : cubesMono cs ds) :
    cubesMono (c :: cs) (d :: ds) := by
  intro p hp
  simp only [List.zip_cons_cons, List.mem_cons] at hp
  rcases hp with h | h
  · subst h; exact hhd
  · exact htl p h

/-! ### The scan of checkPlatformCollision: cube-level specification -/

theorem scanCubes_spec {px py radius : ℚ} {cs cs1 : List Cube} {top : ℚ}
    {nh : Bool} (h : scanCubes px py radius cs = some (cs1, top, nh)) :
    cs1.length = cs.length ∧
    cubesMono cs cs1 ∧
    cubeFlips cs cs1 = (if nh then 1 else 0) ∧
    (nh = false → cs1 = cs) ∧
    cubesChanged cs cs1 ≤ 1 ∧
    ∃ c ∈ cs, cubeOverlap px py radius c = true ∧ top = c.posY + (5/10) ∧
      nh = !c.isHit := by
  induction cs generalizing cs1 with
  | nil => simp [scanCubes] at h
  | cons c cs ih =>
    rw [scanCubes] at h
    by_cases hov : cubeOverlap px py radius c = true
    · rw [if_pos hov] at h
      by_cases hc : c.isHit = true
      · simp only [hc, if_true, Option.some.injEq, Prod.mk.injEq] at h
        obtain ⟨hcs, htop, hnh⟩ := h
        subst hcs htop
        refine ⟨rfl, cubesMono_self _, ?_, fun _ => rfl, ?_, c, ?_⟩
        · rw [cubeFlips_self, ← hnh]; simp
        · rw [cubesChanged_self]; omega
        · exact ⟨List.mem_cons_self c cs, hov, rfl, by rw [← hnh, hc]⟩
      · rw [Bool.not_eq_true] at hc
        simp only [hc, Bool.false_eq_true, if_false, Option.some.injEq,
          Prod.mk.injEq] at h
        obtain ⟨hcs, htop, hnh⟩ := h
        subst htop
        rw [← hcs]
        refine ⟨rfl, cubesMono_cons (fun _ => rfl) (cubesMono_self _), ?_, ?_,
          ?_, c, ?_⟩
        · rw [cubeFlips_cons, cubeFlips_self, ← hnh]
          simp [hc]
        · intro hfalse; rw [← hnh] at hfalse; simp at hfalse
        · rw [cubesChanged_cons, cubesChanged_self]
          split <;> omega
        · exact ⟨List.mem_cons_self c cs, hov, rfl, by rw [← hnh, hc]⟩
    · rw [if_neg hov] at h
      cases hrec : scanCubes px py radius cs with
      | none => rw [hrec] at h; cases h
      | some val =>
        obtain ⟨cs2, top2, nh2⟩ := val
        rw [hrec] at h
        simp only [Option.some.injEq, Prod.mk.injEq] at h
        obtain ⟨hcs, htop, hnh⟩ := h
        subst htop hnh
        rw [← hcs]
        obtain ⟨hlen, hmono, hflips, hunch, hchg, cw, hcwmem, hcwov, hcwtop,
          hcwnh⟩ := ih hrec
        refine ⟨by simp [hlen], cubesMono_cons (fun hh => hh) hmono, ?_, ?_,
          ?_, cw, List.mem_cons_of_mem c hcwmem, hcwov, hcwtop, hcwnh⟩
        · rw [cubeFlips_cons, hflips]
          cases c.isHit <;> simp
        · intro hfalse; rw [hunch hfalse]
        · rw [cubesChanged_cons]
          simpa using hchg

/-! ### The scan of checkPlatformCollision: platform-level specification -/

theorem platsMono_self (pfs : List Platform) : platsMono pfs pfs := by
  intro q hq
  rw [← mem_zip_self hq]
  exact cubesMono_self _

theorem hitFlips_cons (pf qf : Platform) (pfs qfs : List Platform) :
    hitFlips (pf :: pfs) (qf :: qfs) =
      cubeFlips pf.cubes qf.cubes + hitFlips pfs qfs := by
  simp [hitFlips, List.zip_cons_cons]

theorem platsCubesChanged_cons (pf qf : Platform) (pfs qfs : List Platform) :
    platsCubesChanged (pf :: pfs) (qf :: qfs) =
      cubesChanged pf.cubes qf.cubes + platsCubesChanged pfs qfs := by
  simp [platsCubesChanged, List.zip_cons_cons]

theorem platsCubesChanged_self (pfs : List Platform) :
    platsCubesChanged pfs pfs = 0 := by
  unfold platsCubesChanged
  apply List.sum_eq_zero
  intro x hx
  rcases List.mem_map.mp hx with ⟨q, hq, rfl⟩
  rw [mem_zip_self hq]
  exact cubesChanged_self _

theorem platsMono_cons {pf qf : Platform} {pfs qfs : List Platform}
    (hhd : cubesMono pf.cubes qf.cubes) (htl : platsMono pfs qfs) :
    platsMono (pf :: pfs) (qf :: qfs) := by
  intro q hq
  simp only [List.zip_cons_cons, List.mem_cons] at hq
  rcases hq with h | h
  · subst h; exact hhd
  · exact htl q h

/-- Structural specification of the platform scan: lengths are preserved,
hit flags only go false→true, the number of flips matches the `newHit`
report, a relanding (newHit = false) leaves the platform list untouched,
at most one cube changes, every platform keeps all its non-cube fields and
its cube count, and the reported top face/hit-novelty come from an
overlapping cube of some scanned platform. -/
theorem scanPlatforms_spec {px py radius : ℚ} {pfs pfs1 : List Platform}
    {top : ℚ} {nh : Bool}
    (h : scanPlatforms px py radius pfs = some (pfs1, top, nh)) :
    pfs1.length = pfs.length ∧
    platsMono pfs pfs1 ∧
    hitFlips pfs pfs1 = (if nh then 1 else 0) ∧
    (nh = false → pfs1 = pfs) ∧
    platsCubesChanged pfs pfs1 ≤ 1 ∧
    (∀ q ∈ pfs.zip pfs1, q.2 = { q.1 with cubes := q.2.cubes } ∧
      q.2.cubes.length = q.1.cubes.length) ∧
    ∃ pf ∈ pfs, ∃ c ∈ pf.cubes, cubeOverlap px py radius c = true ∧
      top = c.posY + (5/10) ∧ nh = !c.isHit := by
  induction pfs generalizing pfs1 with
  | nil => simp [scanPlatforms] at h
  | cons pf pfs ih =>
    rw [scanPlatforms] at h
    cases hcs : scanCubes px py radius pf.cubes with
    | some val =>
      obtain ⟨cs, top2, nh2⟩ := val
      rw [hcs] at h
      simp only [Option.some.injEq, Prod.mk.injEq] at h
      obtain ⟨hpfs, htop, hnh⟩ := h
      subst htop hnh
      rw [← hpfs]
      obtain ⟨hlen, hmono, hflips, hunch, hchg, cw, hcwmem, hcwov, hcwtop,
        hcwnh⟩ := scanCubes_spec hcs
      refine ⟨rfl, platsMono_cons hmono (platsMono_self _), ?_, ?_, ?_, ?_,
        pf, List.mem_cons_self pf pfs, cw, hcwmem, hcwov, hcwtop, hcwnh⟩
      · rw [hitFlips_cons, hitFlips_self, hflips]; omega
      · intro hfalse
        rw [hunch hfalse]
      · rw [platsCubesChanged_cons, platsCubesChanged_self]
        simpa using hchg
      · intro q hq
        simp only [List.zip_cons_cons, List.mem_cons] at hq
        rcases hq with hh | hh
        · subst hh; exact ⟨rfl, hlen⟩
        · rw [← mem_zip_self hh]
          exact ⟨rfl, rfl⟩
    | none =>
      rw [hcs] at h
      cases hrec : scanPlatforms px py radius pfs with
      | none => rw [hrec] at h; cases h
      | some val =>
        obtain ⟨pfs2, top2, nh2⟩ := val
        rw [hrec] at h
        simp only [Option.some.injEq, Prod.mk.injEq] at h
        obtain ⟨hpfs, htop, hnh⟩ := h
        subst htop hnh
        rw [← hpfs]
        obtain ⟨hlen, hmono, hflips, hunch, hchg, hfields, pw, hpwmem, rest⟩ :=
          ih hrec
        refine ⟨by simp [hlen], platsMono_cons (cubesMono_self _) hmono, ?_,
          ?_, ?_, ?_, pw, List.mem_cons_of_mem pf hpwmem, rest⟩
        · rw [hitFlips_cons, cubeFlips_self, hflips]; omega
        · intro hfalse; rw [hunch hfalse]
        · rw [platsCubesChanged_cons, cubesChanged_self]
          simpa using hchg
        · intro q hq
          simp only [List.zip_cons_cons, List.mem_cons] at hq
          rcases hq with hh | hh
          · subst hh; exact ⟨rfl, rfl⟩
          · exact hfields q hh

/-! ### Collision resolution: function-level specifications -/

theorem updateHighScore_eq_max (c h : ℕ) : updateHighScore c h = max h c := by
  unfold updateHighScore
  split <;> omega

/-- Full effect specification of checkPlatformCollision on the observables
the claims talk about: platform shape preserved, hit flags monotone, the
score grows by exactly the number of fresh hit flips (0 or 1), at most one
cube changes, the high score follows `max` on a fresh hit and is untouched
otherwise, and the driver-level fields are untouched. -/
theorem checkPlatformCollision_spec {rI rN rR rSpin : ℚ} {s s1 : GameState}
    (h : checkPlatformCollision rI rN rR rSpin s = s1) :
    s1.platforms.length = s.platforms.length ∧
    platsMono s.platforms s1.platforms ∧
    s1.score = s.score + hitFlips s.platforms s1.platforms ∧
    hitFlips s.platforms s1.platforms ≤ 1 ∧
    platsCubesChanged s.platforms s1.platforms ≤ 1 ∧
    ((s1.score = s.score ∧ s1.highScore = s.highScore) ∨
      (s1.score = s.score + 1 ∧ s1.highScore = max s.highScore s1.score)) ∧
    (∀ q ∈ s.platforms.zip s1.platforms,
      q.2 = { q.1 with cubes := q.2.cubes } ∧
      q.2.cubes.length = q.1.cubes.length) ∧
    s1.nextPlatformY = s.nextPlatformY ∧
    s1.globalPlatformCounter = s.globalPlatformCounter ∧
    s1.gameStarted = s.gameStarted ∧
    s1.intro = s.intro := by
  unfold checkPlatformCollision at h
  by_cases hv : s.player.velY > 0
  · rw [if_pos hv] at h
    subst h
    refine ⟨rfl, platsMono_self _, ?_, ?_, ?_, Or.inl ⟨rfl, rfl⟩, ?_, rfl,
      rfl, rfl, rfl⟩
    · rw [hitFlips_self]; omega
    · rw [hitFlips_self]; omega
    · rw [platsCubesChanged_self]; omega
    · intro q hq
      rw [← mem_zip_self hq]
      exact ⟨rfl, rfl⟩
  · rw [if_neg hv] at h
    cases hscan : scanPlatforms s.player.posX s.player.posY s.player.radius
        s.platforms with
    | none =>
      rw [hscan] at h
      change s = s1 at h
      subst h
      refine ⟨rfl, platsMono_self _, ?_, ?_, ?_, Or.inl ⟨rfl, rfl⟩, ?_, rfl,
        rfl, rfl, rfl⟩
      · rw [hitFlips_self]; omega
      · rw [hitFlips_self]; omega
      · rw [platsCubesChanged_self]; omega
      · intro q hq
        rw [← mem_zip_self hq]
        exact ⟨rfl, rfl⟩
    | some val =>
      obtain ⟨pfs, top, nh⟩ := val
      rw [hscan] at h
      simp only at h
      obtain ⟨hlen, hmono, hflips, hunch, hchg, hfields, hwit⟩ :=
        scanPlatforms_spec hscan
      have hpfs : s1.platforms = pfs := by rw [← h]
      have hscore : s1.score = (if nh then s.score + 1 else s.score) := by
        rw [← h]
      have hhs : s1.highScore =
          (if nh then updateHighScore (if nh then s.score + 1 else s.score)
            s.highScore else s.highScore) := by
        rw [← h]
      rw [hpfs]
      refine ⟨hlen, hmono, ?_, ?_, hchg, ?_, hfields, by rw [← h], by rw [← h],
        by rw [← h], by rw [← h]⟩
      · rw [hscore, hflips]
        cases nh <;> simp
      · rw [hflips]
        cases nh <;> simp
      · cases nh with
        | false => exact Or.inl ⟨by simp [hscore], by simp [hhs]⟩
        | true =>
          refine Or.inr ⟨by simp [hscore], ?_⟩
          rw [hhs, hscore]
          simp [updateHighScore_eq_max]

/-- The analogous specification for the intro-fall collision block of
updateGame(). -/
theorem introCollision_spec {rI rN rR : ℚ} {s s1 : GameState}
    (h : introCollision rI rN rR s = s1) :
    s1.platforms.length = s.platforms.length ∧
    platsMono s.platforms s1.platforms ∧
    s1.score = s.score + hitFlips s.platforms s1.platforms ∧
    hitFlips s.platforms s1.platforms ≤ 1 ∧
    platsCubesChanged s.platforms s1.platforms ≤ 1 ∧
    ((s1.score = s.score ∧ s1.highScore = s.highScore) ∨
      (s1.score = s.score + 1 ∧ s1.highScore = max s.highScore s1.score)) ∧
    s1.nextPlatformY = s.nextPlatformY ∧
    s1.globalPlatformCounter = s.globalPlatformCounter ∧
    (∀ q ∈ s.platforms.zip s1.platforms,
      q.2 = { q.1 with cubes := q.2.cubes } ∧
      q.2.cubes.length = q.1.cubes.length) := by
  unfold introCollision at h
  by_cases hv : s.player.velY > 0
  · rw [if_pos hv] at h
    subst h
    refine ⟨rfl, platsMono_self _, ?_, ?_, ?_, Or.inl ⟨rfl, rfl⟩, rfl, rfl, ?_⟩
    · rw [hitFlips_self]; omega
    · rw [hitFlips_self]; omega
    · rw [platsCubesChanged_self]; omega
    · intro q hq
      rw [← mem_zip_self hq]
      exact ⟨rfl, rfl⟩
  · rw [if_neg hv] at h
    cases hscan : scanPlatforms s.player.posX s.player.posY s.player.radius
        s.platforms with
    | none =>
      rw [hscan] at h
      change s = s1 at h
      subst h
      refine ⟨rfl, platsMono_self _, ?_, ?_, ?_, Or.inl ⟨rfl, rfl⟩, rfl, rfl,
        ?_⟩
      · rw [hitFlips_self]; omega
      · rw [hitFlips_self]; omega
      · rw [platsCubesChanged_self]; omega
      · intro q hq
        rw [← mem_zip_self hq]
        exact ⟨rfl, rfl⟩
    | some val =>
      obtain ⟨pfs, top, nh⟩ := val
      rw [hscan] at h
      simp only at h
      obtain ⟨hlen, hmono, hflips, hunch, hchg, hfields, hwit⟩ :=
        scanPlatforms_spec hscan
      have hpfs : s1.platforms = pfs := by rw [← h]
      have hscore : s1.score = (if nh then s.score + 1 else s.score) := by
        rw [← h]
      have hhs : s1.highScore =
          (if nh then updateHighScore (if nh then s.score + 1 else s.score)
            s.highScore else s.highScore) := by
        rw [← h]
      rw [hpfs]
      refine ⟨hlen, hmono, ?_, ?_, hchg, ?_, by rw [← h], by rw [← h],
        hfields⟩
      · rw [hscore, hflips]
        cases nh <;> simp
      · rw [hflips]
        cases nh <;> simp
      · cases nh with
        | false => exact Or.inl ⟨by simp [hscore], by simp [hhs]⟩
        | true =>
          refine Or.inr ⟨by simp [hscore], ?_⟩
          rw [hhs, hscore]
          simp [updateHighScore_eq_max]

/-! ### The remaining phases never touch the score, the high score, or a
surviving cube's hit flag -/

theorem updateCubeFall_isHit (score : ℕ) (c : Cube) :
    (updateCubeFall score c).isHit = c.isHit := by
  unfold updateCubeFall
  split <;> rfl

theorem map_isHit_mapIdx (g : ℕ → Cube → Cube)
    (hg : ∀ i c, (g i c).isHit = c.isHit) (cs : List Cube) :
    (cs.mapIdx g).map (fun c => c.isHit) = cs.map (fun c => c.isHit) := by
  induction cs generalizing g with
  | nil => rfl
  | cons c cs ih =>
    rw [List.mapIdx_cons, List.map_cons, List.map_cons, hg]
    rw [ih (fun i => g (i + 1)) (fun i => hg (i + 1))]

/-- The platform loop of updateGame() moves cubes but never changes a hit
flag, the cube count, the platform index, or the platform's y. -/
theorem updatePlatform_preserves (score : ℕ) (V : ℚ) (pf : Platform) :
    (updatePlatform score V pf).cubes.map (fun c => c.isHit) =
      pf.cubes.map (fun c => c.isHit) ∧
    (updatePlatform score V pf).cubes.length = pf.cubes.length ∧
    (updatePlatform score V pf).platformIndex = pf.platformIndex ∧
    (updatePlatform score V pf).posY = pf.posY := by
  unfold updatePlatform
  have hmap : ∀ cs : List Cube,
      (cs.map (updateCubeFall score)).map (fun c => c.isHit) =
        cs.map (fun c => c.isHit) := by
    intro cs
    rw [List.map_map]
    congr 1
    funext c
    exact updateCubeFall_isHit score c
  by_cases h5 : 5 ≤ score <;> simp only [h5, if_true, if_false] <;>
    split <;>
    simp [map_isHit_mapIdx, hmap, updateCubeFall_isHit, List.length_mapIdx]

/-- One generation iteration: rfl-level field bookkeeping. -/
theorem genStep_fields (V : ℚ) (r : ℚ × ℚ) (s : GameState) :
    (genStep V r s).score = s.score ∧
    (genStep V r s).highScore = s.highScore ∧
    (genStep V r s).player = s.player ∧
    (genStep V r s).world = s.world ∧
    (genStep V r s).explosions = s.explosions ∧
    (genStep V r s).glitch = s.glitch ∧
    (genStep V r s).gameStarted = s.gameStarted ∧
    (genStep V r s).intro = s.intro ∧
    (genStep V r s).globalPlatformCounter = s.globalPlatformCounter + 1 ∧
    (genStep V r s).platforms = s.platforms ++
      [(createPlatform s.score V r.2 s.globalPlatformCounter
        ((r.1 - (5/10)) * (V * (18/10))) s.nextPlatformY).1] := by
  exact ⟨rfl, rfl, rfl, rfl, rfl, rfl, rfl, rfl, rfl, rfl⟩

/-- The generation loop only grows the platform list and bumps the counter
and nextPlatformY; every other field is untouched. -/
theorem generatePlatformsAux_spec (V : ℚ) (rands : ℕ → ℚ × ℚ) (n : ℕ)
    (s : GameState) :
    (generatePlatformsAux V rands n s).score = s.score ∧
    (generatePlatformsAux V rands n s).highScore = s.highScore ∧
    (generatePlatformsAux V rands n s).player = s.player ∧
    (generatePlatformsAux V rands n s).world = s.world ∧
    (generatePlatformsAux V rands n s).explosions = s.explosions ∧
    (generatePlatformsAux V rands n s).glitch = s.glitch ∧
    (generatePlatformsAux V rands n s).gameStarted = s.gameStarted ∧
    (generatePlatformsAux V rands n s).intro = s.intro ∧
    ∃ new : List Platform,
      (generatePlatformsAux V rands n s).platforms = s.platforms ++ new := by
  induction n generalizing s with
  | zero =>
    refine ⟨rfl, rfl, rfl, rfl, rfl, rfl, rfl, rfl, [], ?_⟩
    simp [generatePlatformsAux]
  | succ n ih =>
    rw [generatePlatformsAux]
    by_cases hlt : s.platforms.length < 15
    · rw [if_pos hlt]
      obtain ⟨h1, h2, h3, h4, h5, h6, h7, h8, new, hnew⟩ :=
        ih (genStep V (rands n) s)
      obtain ⟨g1, g2, g3, g4, g5, g6, g7, g8, g9, g10⟩ :=
        genStep_fields V (rands n) s
      refine ⟨h1.trans g1, h2.trans g2, h3.trans g3, h4.trans g4,
        h5.trans g5, h6.trans g6, h7.trans g7, h8.trans g8, ?_⟩
      rw [hnew, g10, List.append_assoc]
      exact ⟨_, rfl⟩
    · rw [if_neg hlt]
      exact ⟨rfl, rfl, rfl, rfl, rfl, rfl, rfl, rfl, [], by simp⟩

/-- Every platform present after the generation loop was either already
present or was created by createPlatform at the loop's spawn x for one of
the supplied draws (at the then-current score, which the loop never
changes). -/
theorem generatePlatformsAux_mem (V : ℚ) (rands : ℕ → ℚ × ℚ) (n : ℕ)
    (s : GameState) :
    ∀ pf ∈ (generatePlatformsAux V rands n s).platforms,
      pf ∈ s.platforms ∨
      ∃ k y counter,
        pf = (createPlatform s.score V (rands k).2 counter
          (((rands k).1 - (5/10)) * (V * (18/10))) y).1 := by
  induction n generalizing s with
  | zero =>
    intro pf hpf
    rw [generatePlatformsAux] at hpf
    exact Or.inl hpf
  | succ n ih =>
    rw [generatePlatformsAux]
    by_cases hlt : s.platforms.length < 15
    · rw [if_pos hlt]
      intro pf hpf
      obtain ⟨g1, g2, g3, g4, g5, g6, g7, g8, g9, g10⟩ :=
        genStep_fields V (rands n) s
      rcases ih (genStep V (rands n) s) pf hpf with hmem | hnew
      · rw [g10, List.mem_append, List.mem_singleton] at hmem
        rcases hmem with hmem | hmem
        · exact Or.inl hmem
        · exact Or.inr ⟨n, s.nextPlatformY, s.globalPlatformCounter, hmem⟩
      · rw [g1] at hnew
        exact Or.inr hnew
    · rw [if_neg hlt]
      intro pf hpf
      exact Or.inl hpf

/-- generatePlatforms inherits the loop's field bookkeeping. -/
theorem generatePlatforms_spec (V : ℚ) (rands : ℕ → ℚ × ℚ) (s : GameState) :
    (generatePlatforms V rands s).score = s.score ∧
    (generatePlatforms V rands s).highScore = s.highScore ∧
    (generatePlatforms V rands s).player = s.player ∧
    (generatePlatforms V rands s).world = s.world ∧
    (generatePlatforms V rands s).explosions = s.explosions ∧
    (generatePlatforms V rands s).glitch = s.glitch ∧
    (generatePlatforms V rands s).gameStarted = s.gameStarted ∧
    (generatePlatforms V rands s).intro = s.intro ∧
    ∃ new : List Platform,
      (generatePlatforms V rands s).platforms = s.platforms ++ new :=
  generatePlatformsAux_spec V rands _ s

/-! ### Field bookkeeping through the tick phases -/

theorem physicsPhases_fields (inp : TickInput) (s : GameState) :
    (physicsPhases inp s).platforms = s.platforms ∧
    (physicsPhases inp s).score = s.score ∧
    (physicsPhases inp s).highScore = s.highScore ∧
    (physicsPhases inp s).nextPlatformY = s.nextPlatformY ∧
    (physicsPhases inp s).globalPlatformCounter = s.globalPlatformCounter ∧
    (physicsPhases inp s).explosions = s.explosions ∧
    (physicsPhases inp s).glitch = s.glitch :=
  ⟨rfl, rfl, rfl, rfl, rfl, rfl, rfl⟩

theorem generationPhase_fields (V : ℚ) (rands : ℕ → ℚ × ℚ) (s : GameState) :
    (generationPhase V rands s).score = s.score ∧
    (generationPhase V rands s).highScore = s.highScore ∧
    (generationPhase V rands s).player = s.player ∧
    (generationPhase V rands s).world = s.world ∧
    (generationPhase V rands s).explosions = s.explosions ∧
    (generationPhase V rands s).glitch = s.glitch := by
  unfold generationPhase
  split
  · obtain ⟨h1, h2, h3, h4, h5, h6, _⟩ := generatePlatforms_spec V rands s
    exact ⟨h1, h2, h3, h4, h5, h6⟩
  · exact ⟨rfl, rfl, rfl, rfl, rfl, rfl⟩

theorem introPhysics_fields (s : GameState) :
    (introPhysics s).score = s.score ∧
    (introPhysics s).highScore = s.highScore ∧
    (introPhysics s).platforms = s.platforms := by
  unfold introPhysics
  dsimp only
  split <;> exact ⟨rfl, rfl, rfl⟩

theorem postCollisionPhases_score (inp : TickInput) (s2 : GameState) :
    (postCollisionPhases inp s2).score = s2.score ∧
    (postCollisionPhases inp s2).highScore = s2.highScore := by
  exact ⟨(generationPhase_fields inp.V inp.genRands _).1,
    (generationPhase_fields inp.V inp.genRands _).2.1⟩

theorem playingPhases_score (inp : TickInput) (s : GameState) :
    (playingPhases inp s).score =
      (collisionPhase inp (physicsPhases inp s)).score ∧
    (playingPhases inp s).highScore =
      (collisionPhase inp (physicsPhases inp s)).highScore :=
  postCollisionPhases_score inp _

/-- When the game is started, out of the intro, and the post-phase state is
above the fall-out threshold, the tick is exactly the playing pipeline. -/
theorem updateGameTick_noReset {inp : TickInput} {s : GameState}
    (hintro : s.intro.active = false) (hstart : s.gameStarted = true)
    (hno : ¬ ((playingPhases inp s).player.posY +
      (playingPhases inp s).world.offset < -10)) :
    updateGameTick inp s = playingPhases inp s := by
  unfold updateGameTick
  rw [hintro, hstart]
  simp only [Bool.false_eq_true, if_false, Bool.not_true]
  unfold gameOverPhase
  rw [if_neg hno]

/-- When the reset condition holds at the end of a started tick, the tick
is the reset applied to the playing pipeline. -/
theorem updateGameTick_reset {inp : TickInput} {s : GameState}
    (hintro : s.intro.active = false) (hstart : s.gameStarted = true)
    (hyes : (playingPhases inp s).player.posY +
      (playingPhases inp s).world.offset < -10) :
    updateGameTick inp s =
      resetGame inp.V inp.resetCube inp.resetRands (playingPhases inp s) := by
  unfold updateGameTick
  rw [hintro, hstart]
  simp only [Bool.false_eq_true, if_false, Bool.not_true]
  unfold gameOverPhase
  rw [if_pos hyes]

/-! ### Platform creation and the reset -/

theorem createPlatform_fields (score : ℕ) (V rCube : ℚ) (counter : ℕ)
    (x y : ℚ) :
    (createPlatform score V rCube counter x y).1.platformIndex = counter ∧
    (createPlatform score V rCube counter x y).2 = counter + 1 ∧
    (createPlatform score V rCube counter x y).1.posX = x ∧
    (createPlatform score V rCube counter x y).1.posY = y ∧
    (createPlatform score V rCube counter x y).1.width =
      (getDifficultyPlatformCubeCount score rCube : ℚ) * (11/10) :=
  ⟨rfl, rfl, rfl, rfl, rfl⟩

theorem createPlatform_cubes (score : ℕ) (V rCube : ℚ) (counter : ℕ)
    (x y : ℚ) :
    ∀ c ∈ (createPlatform score V rCube counter x y).1.cubes,
      c.isHit = false ∧ c.falling = false ∧ c.posY = y := by
  intro c hc
  unfold createPlatform at hc
  simp only [List.mem_map, List.mem_range] at hc
  obtain ⟨i, _, rfl⟩ := hc
  exact ⟨rfl, rfl, rfl⟩

/-- The reset: every mutable field back to its initial value, explosions
cleared, the high score untouched, and the regenerated platform list
headed by the starting platform created at (0, -2) with the counter
restarted at 0. -/
theorem resetGame_spec (V rCube0 : ℚ) (rands : ℕ → ℚ × ℚ) (s : GameState) :
    (resetGame V rCube0 rands s).gameStarted = false ∧
    (resetGame V rCube0 rands s).score = 0 ∧
    (resetGame V rCube0 rands s).highScore = s.highScore ∧
    (resetGame V rCube0 rands s).player.posX = 0 ∧
    (resetGame V rCube0 rands s).player.posY = 0 ∧
    (resetGame V rCube0 rands s).player.velX = 0 ∧
    (resetGame V rCube0 rands s).player.velY = 0 ∧
    (resetGame V rCube0 rands s).world.offset = 0 ∧
    (resetGame V rCube0 rands s).explosions = [] ∧
    (resetGame V rCube0 rands s).intro.active = false ∧
    ∃ rest : List Platform,
      (resetGame V rCube0 rands s).platforms =
        (createPlatform 0 V rCube0 0 0 (-2)).1 :: rest := by
  unfold resetGame
  obtain ⟨h1, h2, h3, h4, h5, h6, h7, h8, new, hnew⟩ :=
    generatePlatforms_spec V rands _
  refine ⟨h7.trans rfl, h1.trans rfl, h2.trans rfl, ?_, ?_, ?_, ?_, ?_,
    h5.trans rfl, ?_, new, ?_⟩
  · rw [h3]; rfl
  · rw [h3]; rfl
  · rw [h3]; rfl
  · rw [h3]; rfl
  · rw [h4]; rfl
  · rw [h8]; rfl
  · rw [hnew]
    rfl

/-! ## Claim theorems -/

/-- C3: Whenever a landing is resolved against a segment in
checkPlatformCollision, the player's vertical velocity is set to exactly
the fixed jump velocity 0.25, the player's y is snapped to the segment's
top face plus the player radius, the on-ground flag is set, and the
double-jump charge is restored (available again, the air double jump
unspent).  The reported top face is that of an overlapping segment of a
scanned platform. -/
theorem landing_resolution_C3 {rI rN rR rSpin : ℚ} {s : GameState}
    {pfs : List Platform} {cubeTop : ℚ} {nh : Bool}
    (hfall : ¬ s.player.velY > 0)
    (hscan : scanPlatforms s.player.posX s.player.posY s.player.radius
      s.platforms = some (pfs, cubeTop, nh)) :
    (checkPlatformCollision rI rN rR rSpin s).player.velY = jumpVelocity ∧
    jumpVelocity = 25/100 ∧
    (checkPlatformCollision rI rN rR rSpin s).player.posY =
      cubeTop + s.player.radius ∧
    (checkPlatformCollision rI rN rR rSpin s).player.onGround = true ∧
    (checkPlatformCollision rI rN rR rSpin s).player.doubleJumpAvailable =
      true ∧
    (checkPlatformCollision rI rN rR rSpin s).player.hasDoubleJumped =
      false ∧
    ∃ pf ∈ s.platforms, ∃ c ∈ pf.cubes,
      cubeOverlap s.player.posX s.player.posY s.player.radius c = true ∧
      cubeTop = c.posY + 5/10 := by
  obtain ⟨-, -, -, -, -, -, pf, hpfmem, c, hcmem, hov, htop, -⟩ :=
    scanPlatforms_spec hscan
  unfold checkPlatformCollision
  rw [if_neg hfall, hscan]
  refine ⟨?_, rfl, ?_, ?_, ?_, ?_, ⟨pf, hpfmem, c, hcmem, hov, htop⟩⟩ <;>
    (dsimp only;
     all_goals (by_cases hspin : rSpin < (2/10 : ℚ) <;>
       simp [hspin, startBackspin]))

/-- Witness for C3 at the concrete test state: the player at (0,1) with
velocity 0 lands on the origin cube. -/
theorem landing_resolution_C3_witness :
    (¬ testState.player.velY > 0) ∧
    (checkPlatformCollision 0 0 0 1 testState).player.velY = jumpVelocity ∧
    (checkPlatformCollision 0 0 0 1 testState).player.posY =
      5/10 + testState.player.radius ∧
    (checkPlatformCollision 0 0 0 1 testState).player.onGround = true ∧
    (checkPlatformCollision 0 0 0 1 testState).player.doubleJumpAvailable =
      true := by
  have h := @landing_resolution_C3 0 0 0 1 testState [testHitPlatform]
    (5/10) true (by decide) (by decide)
  exact ⟨by decide, h.1, h.2.2.1, h.2.2.2.1, h.2.2.2.2.1⟩

/-- C2 counterexample: in testHitState the only overlapping segment
already has isHit = true (the scan reports no new hit and leaves the
platform list unchanged), yet collision resolution still occurs against
it on this tick: the velocity is reset to the jump velocity, the player
is snapped to the segment top, the on-ground flag is set, an explosion is
pushed and the glitch is triggered. -/
theorem hit_segment_relanding_C2_counterexample :
    testHitCube.isHit = true ∧
    scanPlatforms testHitState.player.posX testHitState.player.posY
      testHitState.player.radius testHitState.platforms =
      some (testHitState.platforms, 5/10, false) ∧
    (checkPlatformCollision 0 0 0 1 testHitState).player.velY =
      jumpVelocity ∧
    (checkPlatformCollision 0 0 0 1 testHitState).player.onGround = true ∧
    (checkPlatformCollision 0 0 0 1 testHitState).player.posY =
      5/10 + testHitState.player.radius ∧
    (checkPlatformCollision 0 0 0 1 testHitState).glitch.active = true ∧
    (checkPlatformCollision 0 0 0 1 testHitState).explosions ≠
      testHitState.explosions := by decide

/-- C2 (amended): once a segment has been hit, relanding on it is
idempotent for the hit state — the platform list, the score and the high
score are unchanged — but the segment remains a collision target: the
landing resolution (velocity reset, position snap, explosion, glitch)
still occurs against it. -/
theorem hit_segment_relanding_C2 {rI rN rR rSpin : ℚ} {s : GameState}
    {pfs : List Platform} {cubeTop : ℚ}
    (hfall : ¬ s.player.velY > 0)
    (hscan : scanPlatforms s.player.posX s.player.posY s.player.radius
      s.platforms = some (pfs, cubeTop, false)) :
    (checkPlatformCollision rI rN rR rSpin s).platforms = s.platforms ∧
    (checkPlatformCollision rI rN rR rSpin s).score = s.score ∧
    (checkPlatformCollision rI rN rR rSpin s).highScore = s.highScore ∧
    (checkPlatformCollision rI rN rR rSpin s).player.velY = jumpVelocity ∧
    (checkPlatformCollision rI rN rR rSpin s).player.onGround = true ∧
    (checkPlatformCollision rI rN rR rSpin s).player.posY =
      cubeTop + s.player.radius ∧
    (checkPlatformCollision rI rN rR rSpin s).glitch.active = true ∧
    (checkPlatformCollision rI rN rR rSpin s).explosions =
      s.explosions ++ [createExplosion] := by
  obtain ⟨-, -, -, hunch, -⟩ := scanPlatforms_spec hscan
  have hpfs : pfs = s.platforms := hunch rfl
  subst hpfs
  unfold checkPlatformCollision
  rw [if_neg hfall, hscan]
  refine ⟨?_, ?_, ?_, ?_, ?_, ?_, ?_, ?_⟩ <;>
    (dsimp only;
     all_goals (by_cases hspin : rSpin < (2/10 : ℚ) <;>
       simp [hspin, startBackspin, triggerGlitch]))

/-- Witness for the amended C2 at the concrete already-hit test state. -/
theorem hit_segment_relanding_C2_witness :
    (¬ testHitState.player.velY > 0) ∧
    (checkPlatformCollision 0 0 0 1 testHitState).platforms =
      testHitState.platforms ∧
    (checkPlatformCollision 0 0 0 1 testHitState).score =
      testHitState.score ∧
    (checkPlatformCollision 0 0 0 1 testHitState).player.velY =
      jumpVelocity := by
  have h := @hit_segment_relanding_C2 0 0 0 1 testHitState
    testHitState.platforms (5/10) (by decide) (by decide)
  exact ⟨by decide, h.1, h.2.1, h.2.2.2.1⟩

/-- C10: a single collision-resolution pass resolves at most one segment
landing per tick — the scan exits at the first overlapping segment — so
the score increases by at most 1 on every tick (of any kind), and
checkPlatformCollision changes at most one cube and flips at most one hit
flag. -/
theorem single_landing_per_tick_C10 :
    (∀ inp s, (updateGameTick inp s).score ≤ s.score + 1) ∧
    (∀ rI rN rR rSpin s,
      hitFlips s.platforms
        (checkPlatformCollision rI rN rR rSpin s).platforms ≤ 1 ∧
      platsCubesChanged s.platforms
        (checkPlatformCollision rI rN rR rSpin s).platforms ≤ 1) := by
  constructor
  · intro inp s
    unfold updateGameTick
    by_cases hintro : s.intro.active = true
    · rw [if_pos hintro]
      unfold introTick
      split
      · exact Nat.le_succ s.score
      · obtain ⟨-, -, hscore, hflips, -⟩ :=
          introCollision_spec
            (rfl :
              introCollision inp.rI inp.rN inp.rR (introPhysics s) = _)
        have hb : (introPhysics s).score = s.score := (introPhysics_fields s).1
        omega
    · rw [if_neg hintro]
      by_cases hstart : s.gameStarted = true
      · have hns : ¬ ((!s.gameStarted) = true) := by simp [hstart]
        rw [if_neg hns]
        unfold gameOverPhase
        split
        · have h0 :
              (resetGame inp.V inp.resetCube inp.resetRands
                (playingPhases inp s)).score = 0 :=
            (resetGame_spec _ _ _ _).2.1
          omega
        · have h1 := (playingPhases_score inp s).1
          obtain ⟨-, -, hscore, hflips, -⟩ :=
            checkPlatformCollision_spec
              (rfl : checkPlatformCollision inp.rI inp.rN inp.rR inp.rSpin
                (physicsPhases inp s) = _)
          have hb : (physicsPhases inp s).score = s.score := rfl
          have h2 : (collisionPhase inp (physicsPhases inp s)).score =
              (checkPlatformCollision inp.rI inp.rN inp.rR inp.rSpin
                (physicsPhases inp s)).score := rfl
          omega
      · have hs : (!s.gameStarted) = true := by
          revert hstart; cases s.gameStarted <;> simp
        rw [if_pos hs]
        omega
  · intro rI rN rR rSpin s
    obtain ⟨-, -, -, hflips, hchg, -⟩ :=
      checkPlatformCollision_spec
        (rfl : checkPlatformCollision rI rN rR rSpin s = _)
    exact ⟨hflips, hchg⟩

/-- C5: the stored high score follows `max` semantics: updateHighScore
returns `max(previous, current)`; the game-over reset never touches (in
particular never lowers) the stored high score; the invariant
"highScore = max(run-start high score, current score)" is preserved by
every collision resolution; and at a game-over tick the stored high score
is exactly `max(run-start high score, final score of the run)` while the
score resets to 0. -/
theorem high_score_max_C5 :
    (∀ c h, updateHighScore c h = max h c) ∧
    (∀ V rCube0 rands s,
      (resetGame V rCube0 rands s).highScore = s.highScore) ∧
    (∀ h0 rI rN rR rSpin s, s.highScore = max h0 s.score →
      (checkPlatformCollision rI rN rR rSpin s).highScore =
        max h0 (checkPlatformCollision rI rN rR rSpin s).score) ∧
    (∀ h0 inp s, s.intro.active = false → s.gameStarted = true →
      s.highScore = max h0 s.score →
      (playingPhases inp s).player.posY +
        (playingPhases inp s).world.offset < -10 →
      (updateGameTick inp s).highScore =
        max h0 (playingPhases inp s).score ∧
      (updateGameTick inp s).score = 0) := by
  have hinv : ∀ (h0 : ℕ) (rI rN rR rSpin : ℚ) (s : GameState),
      s.highScore = max h0 s.score →
      (checkPlatformCollision rI rN rR rSpin s).highScore =
        max h0 (checkPlatformCollision rI rN rR rSpin s).score := by
    intro h0 rI rN rR rSpin s hs
    obtain ⟨-, -, -, -, -, hdisj, -⟩ :=
      checkPlatformCollision_spec
        (rfl : checkPlatformCollision rI rN rR rSpin s = _)
    rcases hdisj with ⟨he, hh⟩ | ⟨he, hh⟩
    · rw [hh, he, hs]
    · rw [hh, he, hs]
      omega
  refine ⟨updateHighScore_eq_max, ?_, hinv, ?_⟩
  · intro V rCube0 rands s
    exact (resetGame_spec V rCube0 rands s).2.2.1
  · intro h0 inp s hintro hstart hs hfell
    rw [updateGameTick_reset hintro hstart hfell]
    have hspec :=
      resetGame_spec inp.V inp.resetCube inp.resetRands (playingPhases inp s)
    refine ⟨?_, hspec.2.1⟩
    rw [hspec.2.2.1, (playingPhases_score inp s).1,
      (playingPhases_score inp s).2]
    exact hinv h0 inp.rI inp.rN inp.rR inp.rSpin (physicsPhases inp s) hs

/-- Witness for C5: a stored high score of 10 is kept against a run score
of 5 and raised by a run score of 15; the collision invariant and the
game-over equation hold at the concrete test states (run-start high score
0 resp. 7). -/
theorem high_score_max_C5_witness :
    updateHighScore 5 10 = max 10 5 ∧
    updateHighScore 15 10 = max 10 15 ∧
    (checkPlatformCollision 0 0 0 1 testState).highScore =
      max 0 (checkPlatformCollision 0 0 0 1 testState).score ∧
    ((updateGameTick testInput fallState).highScore =
      max 7 (playingPhases testInput fallState).score ∧
     (updateGameTick testInput fallState).score = 0) := by
  refine ⟨high_score_max_C5.1 5 10, high_score_max_C5.1 15 10, ?_, ?_⟩
  · exact high_score_max_C5.2.2.1 0 0 0 0 1 testState (by decide)
  · exact high_score_max_C5.2.2.2 7 testInput fallState (by decide)
      (by decide) (by decide) (by decide)

/-- C1: a segment's isHit flag transitions false→true at most once over
its lifetime, each such transition increments the score by exactly 1, and
nothing else increments the score: (a) checkPlatformCollision never
reverts a hit flag and raises the score by exactly the number of flips
(at most one); (b) the same holds for the intro-fall collision block;
(c) on a started, non-intro, non-reset tick the whole tick's score change
equals the collision pass's flip count over the pre-tick platform list;
(d) the platform movement/fall loop never changes a hit flag, and every
freshly created segment starts unhit — so the two collision blocks are
the only writers of isHit, and a hit flag, once true, can never flip
again. -/
theorem hit_flag_transition_scoring_C1 :
    (∀ rI rN rR rSpin s,
      platsMono s.platforms
        (checkPlatformCollision rI rN rR rSpin s).platforms ∧
      (checkPlatformCollision rI rN rR rSpin s).score =
        s.score + hitFlips s.platforms
          (checkPlatformCollision rI rN rR rSpin s).platforms ∧
      hitFlips s.platforms
        (checkPlatformCollision rI rN rR rSpin s).platforms ≤ 1) ∧
    (∀ rI rN rR s,
      platsMono s.platforms (introCollision rI rN rR s).platforms ∧
      (introCollision rI rN rR s).score =
        s.score + hitFlips s.platforms (introCollision rI rN rR s).platforms ∧
      hitFlips s.platforms (introCollision rI rN rR s).platforms ≤ 1) ∧
    (∀ inp s, s.intro.active = false → s.gameStarted = true →
      (¬ ((playingPhases inp s).player.posY +
        (playingPhases inp s).world.offset < -10)) →
      (physicsPhases inp s).platforms = s.platforms ∧
      (updateGameTick inp s).score =
        s.score + hitFlips s.platforms
          (collisionPhase inp (physicsPhases inp s)).platforms) ∧
    (∀ score V pf,
      (updatePlatform score V pf).cubes.map (fun c => c.isHit) =
        pf.cubes.map (fun c => c.isHit)) ∧
    (∀ score V rCube counter x y,
      ∀ c ∈ (createPlatform score V rCube counter x y).1.cubes,
        c.isHit = false) := by
  refine ⟨?_, ?_, ?_, ?_, fun score V rCube counter x y c hc =>
    (createPlatform_cubes score V rCube counter x y c hc).1⟩
  · intro rI rN rR rSpin s
    obtain ⟨-, hmono, hscore, hflips, -⟩ :=
      checkPlatformCollision_spec
        (rfl : checkPlatformCollision rI rN rR rSpin s = _)
    exact ⟨hmono, hscore, hflips⟩
  · intro rI rN rR s
    obtain ⟨-, hmono, hscore, hflips, -⟩ :=
      introCollision_spec (rfl : introCollision rI rN rR s = _)
    exact ⟨hmono, hscore, hflips⟩
  · intro inp s hintro hstart hno
    refine ⟨rfl, ?_⟩
    rw [updateGameTick_noReset hintro hstart hno,
      (playingPhases_score inp s).1]
    obtain ⟨-, -, hscore, -⟩ :=
      checkPlatformCollision_spec
        (rfl : checkPlatformCollision inp.rI inp.rN inp.rR inp.rSpin
          (physicsPhases inp s) = _)
    exact hscore
  · intro score V pf
    exact (updatePlatform_preserves score V pf).1

/-- Witness for C1 at the concrete test state: a tick in which the player
lands on the fresh origin segment. -/
theorem hit_flag_transition_scoring_C1_witness :
    (physicsPhases testInput testState).platforms = testState.platforms ∧
    (updateGameTick testInput testState).score =
      testState.score + hitFlips testState.platforms
        (collisionPhase testInput (physicsPhases testInput testState)).platforms :=
  hit_flag_transition_scoring_C1.2.2.1 testInput testState (by decide)
    (by decide) (by decide)

/-- Membership wrapper for the full generator call. -/
theorem generatePlatforms_mem (V : ℚ) (rands : ℕ → ℚ × ℚ) (s : GameState) :
    ∀ pf ∈ (generatePlatforms V rands s).platforms,
      pf ∈ s.platforms ∨
      ∃ k y counter,
        pf = (createPlatform s.score V (rands k).2 counter
          (((rands k).1 - (5/10)) * (V * (18/10))) y).1 :=
  generatePlatformsAux_mem V rands _ s

/-- C4 counterexample: on a tick where the fall-out reset fires, the state
does reset to NotStarted with score 0, but the platform collection is not
empty immediately after the tick — the reset clears it and immediately
regenerates it. -/
theorem game_over_reset_C4_counterexample :
    fallState.gameStarted = true ∧
    fallState.intro.active = false ∧
    ((playingPhases testInput fallState).player.posY +
      (playingPhases testInput fallState).world.offset < -10) ∧
    (updateGameTick testInput fallState).gameStarted = false ∧
    (updateGameTick testInput fallState).score = 0 ∧
    (updateGameTick testInput fallState).platforms ≠ [] := by decide

/-- C4 (amended): when the world-offset-adjusted player height drops below
-10 during play, the same tick resets the game to NotStarted: the score
becomes 0, player position and velocity become zero, the explosion
collection is empty immediately after, and the platform collection is
cleared and immediately regenerated — it is non-empty, consists solely of
freshly created (unhit) platforms, and its first element is the starting
platform created at the canonical spawn point (0, -2). -/
theorem game_over_reset_C4 {inp : TickInput} {s : GameState}
    (hintro : s.intro.active = false) (hstart : s.gameStarted = true)
    (hfell : (playingPhases inp s).player.posY +
      (playingPhases inp s).world.offset < -10) :
    (updateGameTick inp s).gameStarted = false ∧
    (updateGameTick inp s).score = 0 ∧
    (updateGameTick inp s).player.posX = 0 ∧
    (updateGameTick inp s).player.posY = 0 ∧
    (updateGameTick inp s).player.velX = 0 ∧
    (updateGameTick inp s).player.velY = 0 ∧
    (updateGameTick inp s).explosions = [] ∧
    (∃ rest, (updateGameTick inp s).platforms =
      (createPlatform 0 inp.V inp.resetCube 0 0 (-2)).1 :: rest) ∧
    (updateGameTick inp s).platforms ≠ [] ∧
    (createPlatform 0 inp.V inp.resetCube 0 0 (-2)).1.posX = 0 ∧
    (createPlatform 0 inp.V inp.resetCube 0 0 (-2)).1.posY = -2 ∧
    (∀ pf ∈ (updateGameTick inp s).platforms, ∀ c ∈ pf.cubes,
      c.isHit = false) := by
  rw [updateGameTick_reset hintro hstart hfell]
  obtain ⟨h1, h2, h3, h4, h5, h6, h7, h8, h9, h10, rest, hplat⟩ :=
    resetGame_spec inp.V inp.resetCube inp.resetRands (playingPhases inp s)
  refine ⟨h1, h2, h4, h5, h6, h7, h9, ⟨rest, hplat⟩, ?_, rfl, rfl, ?_⟩
  · rw [hplat]
    exact List.cons_ne_nil _ _
  · intro pf hpf c hc
    have hpf2 : pf ∈ (generatePlatforms inp.V inp.resetRands
        (createPlatformS inp.V inp.resetCube 0 (-2)
          { playingPhases inp s with
            gameStarted := false
            intro := { active := false, progress := 0, delayProgress := 0 }
            player := { (playingPhases inp s).player with
              posX := 0, posY := 0, velX := 0, velY := 0,
              spinning := false, spinProgress := 0,
              doubleJumpAvailable := false, hasDoubleJumped := false }
            score := 0
            world := { offset := 0, targetOffset := 0 }
            platforms := []
            nextPlatformY := 2
            globalPlatformCounter := 0
            explosions := [] })).platforms := hpf
    rcases generatePlatforms_mem _ _ _ pf hpf2 with hmem | ⟨k, y, counter, hpf3⟩
    · simp only [createPlatformS, List.nil_append, List.mem_singleton] at hmem
      subst hmem
      exact (createPlatform_cubes _ _ _ _ _ _ c hc).1
    · subst hpf3
      exact (createPlatform_cubes _ _ _ _ _ _ c hc).1

/-- Witness for the amended C4 at the concrete fallen state. -/
theorem game_over_reset_C4_witness :
    (updateGameTick testInput fallState).gameStarted = false ∧
    (updateGameTick testInput fallState).score = 0 ∧
    (updateGameTick testInput fallState).explosions = [] ∧
    ∃ rest, (updateGameTick testInput fallState).platforms =
      (createPlatform 0 testInput.V testInput.resetCube 0 0 (-2)).1 :: rest := by
  have h := @game_over_reset_C4 testInput fallState (by decide) (by decide)
    (by decide)
  exact ⟨h.1, h.2.1, h.2.2.2.2.2.2.1, h.2.2.2.2.2.2.2.1⟩

/-! ### Platform creation indices (C9 support) -/

theorem map_eq_of_zip {α β : Type*} (f : α → β) :
    ∀ {old new : List α}, new.length = old.length →
      (∀ q ∈ old.zip new, f q.2 = f q.1) → new.map f = old.map f := by
  intro old
  induction old with
  | nil =>
    intro new hlen _
    cases new with
    | nil => rfl
    | cons b bs => simp at hlen
  | cons a old ih =>
    intro new hlen h
    cases new with
    | nil => simp at hlen
    | cons b bs =>
      simp only [List.map_cons]
      rw [h (a, b) (by simp [List.zip_cons_cons]),
        ih (by simpa using hlen)
          (fun q hq => h q (by simp [List.zip_cons_cons, hq]))]

/-- Transport of the index invariant along an index-preserving step. -/
theorem indexInvariant_of_indices_eq {s1 s2 : GameState}
    (hidx : s2.platforms.map (fun pf => pf.platformIndex) =
      s1.platforms.map (fun pf => pf.platformIndex))
    (hcounter : s2.globalPlatformCounter = s1.globalPlatformCounter)
    (h : indexInvariant s1) : indexInvariant s2 := by
  constructor
  · intro pf hpf
    have hm : pf.platformIndex ∈
        s2.platforms.map (fun pf => pf.platformIndex) :=
      List.mem_map_of_mem _ hpf
    rw [hidx] at hm
    rcases List.mem_map.mp hm with ⟨pf1, hpf1, heq⟩
    rw [hcounter, ← heq]
    exact h.1 pf1 hpf1
  · rw [hidx]
    exact h.2

/-- Appending one platform carrying the current counter value and bumping
the counter preserves the index invariant. -/
theorem indexInvariant_append_fresh {s1 s2 : GameState} {pf0 : Platform}
    (hplat : s2.platforms = s1.platforms ++ [pf0])
    (hidx0 : pf0.platformIndex = s1.globalPlatformCounter)
    (hc : s2.globalPlatformCounter = s1.globalPlatformCounter + 1)
    (h : indexInvariant s1) : indexInvariant s2 := by
  constructor
  · intro pf hpf
    rw [hplat] at hpf
    rw [hc]
    rcases List.mem_append.mp hpf with hm | hm
    · exact Nat.lt_succ_of_lt (h.1 pf hm)
    · rw [List.mem_singleton] at hm
      subst hm
      rw [hidx0]
      exact Nat.lt_succ_self _
  · rw [hplat, List.map_append, List.nodup_append]
    refine ⟨h.2, List.nodup_singleton _, ?_⟩
    intro x hx
    rcases List.mem_map.mp hx with ⟨pf1, hpf1, heq⟩
    have hlt := h.1 pf1 hpf1
    simp only [List.map_cons, List.map_nil, List.mem_singleton, hidx0]
    omega

theorem genStep_invariant (V : ℚ) (r : ℚ × ℚ) (s : GameState)
    (h : indexInvariant s) : indexInvariant (genStep V r s) := by
  obtain ⟨-, -, -, -, -, -, -, -, g9, g10⟩ := genStep_fields V r s
  exact indexInvariant_append_fresh g10 rfl g9 h

theorem generatePlatformsAux_invariant (V : ℚ) (rands : ℕ → ℚ × ℚ) :
    ∀ (n : ℕ) (s : GameState), indexInvariant s →
      indexInvariant (generatePlatformsAux V rands n s) := by
  intro n
  induction n with
  | zero =>
    intro s h
    rw [generatePlatformsAux]
    exact h
  | succ n ih =>
    intro s h
    rw [generatePlatformsAux]
    by_cases hlt : s.platforms.length < 15
    · rw [if_pos hlt]
      exact ih _ (genStep_invariant V (rands n) s h)
    · rw [if_neg hlt]
      exact h

theorem generatePlatforms_invariant (V : ℚ) (rands : ℕ → ℚ × ℚ)
    (s : GameState) (h : indexInvariant s) :
    indexInvariant (generatePlatforms V rands s) :=
  generatePlatformsAux_invariant V rands _ s h

theorem generationPhase_invariant (V : ℚ) (rands : ℕ → ℚ × ℚ)
    (s : GameState) (h : indexInvariant s) :
    indexInvariant (generationPhase V rands s) := by
  unfold generationPhase
  split
  · exact generatePlatforms_invariant V rands s h
  · exact h

theorem prunePhase_invariant (s : GameState) (h : indexInvariant s) :
    indexInvariant (prunePhase s) := by
  constructor
  · intro pf hpf
    exact h.1 pf (List.mem_of_mem_filter hpf)
  · exact List.Nodup.sublist
      (List.Sublist.map _ (List.filter_sublist s.platforms)) h.2

theorem platformLoopPhase_indices (V : ℚ) (s : GameState) :
    (platformLoopPhase V s).platforms.map (fun pf => pf.platformIndex) =
      s.platforms.map (fun pf => pf.platformIndex) := by
  unfold platformLoopPhase
  rw [List.map_map]
  congr 1
  funext pf
  exact (updatePlatform_preserves s.score V pf).2.2.1

theorem checkPlatformCollision_indices (rI rN rR rSpin : ℚ)
    (s : GameState) :
    (checkPlatformCollision rI rN rR rSpin s).platforms.map
      (fun pf => pf.platformIndex) =
      s.platforms.map (fun pf => pf.platformIndex) := by
  obtain ⟨hlen, -, -, -, -, -, hfields, -⟩ :=
    checkPlatformCollision_spec
      (rfl : checkPlatformCollision rI rN rR rSpin s = _)
  refine map_eq_of_zip _ hlen (fun q hq => ?_)
  rw [(hfields q hq).1]

theorem introCollision_indices (rI rN rR : ℚ) (s : GameState) :
    (introCollision rI rN rR s).platforms.map (fun pf => pf.platformIndex) =
      s.platforms.map (fun pf => pf.platformIndex) := by
  obtain ⟨hlen, -, -, -, -, -, -, -, hfields⟩ :=
    introCollision_spec (rfl : introCollision rI rN rR s = _)
  refine map_eq_of_zip _ hlen (fun q hq => ?_)
  rw [(hfields q hq).1]

theorem resetGame_invariant (V rCube0 : ℚ) (rands : ℕ → ℚ × ℚ)
    (s : GameState) : indexInvariant (resetGame V rCube0 rands s) := by
  unfold resetGame
  apply generatePlatforms_invariant
  apply indexInvariant_append_fresh rfl rfl rfl
  exact ⟨fun pf hpf => absurd hpf (List.not_mem_nil pf), List.nodup_nil⟩

/-- The whole tick preserves the index invariant. -/
theorem updateGameTick_invariant (inp : TickInput) (s : GameState)
    (h : indexInvariant s) : indexInvariant (updateGameTick inp s) := by
  unfold updateGameTick
  by_cases hintro : s.intro.active = true
  · rw [if_pos hintro]
    unfold introTick
    split
    · exact indexInvariant_of_indices_eq rfl rfl h
    · refine indexInvariant_of_indices_eq ?_ ?_
        (@indexInvariant_of_indices_eq s (introPhysics s) ?_ ?_ h)
      · exact introCollision_indices inp.rI inp.rN inp.rR (introPhysics s)
      · obtain ⟨-, -, -, -, -, -, -, hcnt, -⟩ :=
          introCollision_spec
            (rfl : introCollision inp.rI inp.rN inp.rR (introPhysics s) = _)
        exact hcnt
      · rw [(introPhysics_fields s).2.2]
      · unfold introPhysics
        dsimp only
        split <;> rfl
  · rw [if_neg hintro]
    by_cases hstart : s.gameStarted = true
    · have hns : ¬ ((!s.gameStarted) = true) := by simp [hstart]
      rw [if_neg hns]
      unfold gameOverPhase
      split
      · exact resetGame_invariant _ _ _ _
      · unfold playingPhases postCollisionPhases
        apply prunePhase_invariant
        apply generationPhase_invariant
        refine indexInvariant_of_indices_eq (platformLoopPhase_indices _ _)
          rfl ?_
        refine indexInvariant_of_indices_eq ?_ ?_ h
        · exact checkPlatformCollision_indices inp.rI inp.rN inp.rR inp.rSpin
            (physicsPhases inp s)
        · obtain ⟨-, -, -, -, -, -, -, -, hcnt, -⟩ :=
            checkPlatformCollision_spec
              (rfl : checkPlatformCollision inp.rI inp.rN inp.rR inp.rSpin
                (physicsPhases inp s) = _)
          exact hcnt
    · have hs : (!s.gameStarted) = true := by
        revert hstart; cases s.gameStarted <;> simp
      rw [if_pos hs]
      exact h

/-- C9 counterexample: index values ARE reused after a game-over reset.
Before the tick, a live platform carries creation index 0 and the global
counter is 1; the tick's reset restarts the counter, and the first
platform created after the reset carries index 0 again. -/
theorem platform_index_C9_counterexample :
    fallState.platforms.map (fun pf => pf.platformIndex) = [0] ∧
    fallState.globalPlatformCounter = 1 ∧
    ((playingPhases testInput fallState).player.posY +
      (playingPhases testInput fallState).world.offset < -10) ∧
    ((updateGameTick testInput fallState).platforms.map
      (fun pf => pf.platformIndex)).head? = some 0 := by decide

/-- C9 (amended): createPlatform assigns the counter's current value as
platformIndex and bumps the counter, so within a run indices are strictly
increasing and never reused: every tick preserves the invariant that live
indices are pairwise distinct and below the counter.  However, the
game-over reset resets the global counter to 0, so index values are
reused across runs (the reset's own starting platform carries index 0
again). -/
theorem platform_index_C9 :
    (∀ score V rCube counter x y,
      (createPlatform score V rCube counter x y).1.platformIndex = counter ∧
      (createPlatform score V rCube counter x y).2 = counter + 1) ∧
    (∀ inp s, indexInvariant s → indexInvariant (updateGameTick inp s)) ∧
    (∀ V rCube0 rands s,
      (resetGame V rCube0 rands s).globalPlatformCounter ≥ 1 ∧
      ∃ rest, (resetGame V rCube0 rands s).platforms =
        (createPlatform 0 V rCube0 0 0 (-2)).1 :: rest ∧
      (createPlatform 0 V rCube0 0 0 (-2)).1.platformIndex = 0) := by
  refine ⟨fun score V rCube counter x y => ⟨rfl, rfl⟩,
    updateGameTick_invariant, ?_⟩
  intro V rCube0 rands s
  obtain ⟨-, -, -, -, -, -, -, -, -, -, rest, hplat⟩ :=
    resetGame_spec V rCube0 rands s
  refine ⟨?_, rest, hplat, rfl⟩
  have hinv := resetGame_invariant V rCube0 rands s
  have hmem : (createPlatform 0 V rCube0 0 0 (-2)).1 ∈
      (resetGame V rCube0 rands s).platforms := by
    rw [hplat]; exact List.mem_cons_self _ _
  have := hinv.1 _ hmem
  omega

/-- Witness for the amended C9: the invariant holds before and after the
concrete reset tick, and the reset recreates index 0. -/
theorem platform_index_C9_witness :
    indexInvariant fallState ∧
    indexInvariant (updateGameTick testInput fallState) ∧
    ((resetGame 10 0 (fun _ => ((5/10), 0)) fallState).globalPlatformCounter
      ≥ 1 ∧
    ∃ rest, (resetGame 10 0 (fun _ => ((5/10), 0)) fallState).platforms =
      (createPlatform 0 10 0 0 0 (-2)).1 :: rest ∧
    (createPlatform 0 10 0 0 0 (-2)).1.platformIndex = 0) := by
  have hpre : indexInvariant fallState := by
    constructor
    · intro pf hpf
      have h2 : pf ∈ [testPlatform] := hpf
      rw [List.mem_singleton] at h2
      subst h2
      decide
    · decide
  exact ⟨hpre, platform_index_C9.2.1 testInput fallState hpre,
    platform_index_C9.2.2 10 0 (fun _ => ((5/10), 0)) fallState⟩

/-- C8 counterexample: with viewport half-width 10 and a legitimate draw
0.99 ∈ [0,1), the generator spawns a platform whose full width does NOT
stay within the horizontal viewport bounds: its center plus half its
width exceeds the half-width.  (The spawn x is drawn in
±0.9·viewportHalfWidth without subtracting the platform half-width.) -/
theorem spawn_bounds_C8_counterexample :
    ((0:ℚ) ≤ 99/100 ∧ (99/100 : ℚ) < 1) ∧
    ((generatePlatforms 10 (fun _ => (99/100, 0)) genState).platforms.any
      (fun pf => decide (pf.posX + pf.width / 2 > 10))) = true := by decide

/-- C8 (amended): the generator only bounds the platform CENTER: for every
draw in [0,1] the spawn x lies within ±0.9·viewportHalfWidth; the full
platform extent may exceed the viewport (it stays inside only when the
half-width is large enough relative to the platform width). -/
theorem spawn_x_bounds_C8 {V : ℚ} (hV : 0 ≤ V) (rands : ℕ → ℚ × ℚ)
    (hr : ∀ n, 0 ≤ (rands n).1 ∧ (rands n).1 ≤ 1) (s : GameState) :
    ∀ pf ∈ (generatePlatforms V rands s).platforms,
      pf ∈ s.platforms ∨
      (-(9/10 * V) ≤ pf.posX ∧ pf.posX ≤ 9/10 * V) := by
  intro pf hpf
  rcases generatePlatforms_mem V rands s pf hpf with h | ⟨k, y, counter, hpf3⟩
  · exact Or.inl h
  · right
    rw [hpf3,
      (createPlatform_fields s.score V (rands k).2 counter
        (((rands k).1 - (5/10)) * (V * (18/10))) y).2.2.1]
    obtain ⟨hr0, hr1⟩ := hr k
    constructor
    · nlinarith [mul_nonneg hr0 hV, mul_nonneg (sub_nonneg.mpr hr1) hV]
    · nlinarith [mul_nonneg hr0 hV, mul_nonneg (sub_nonneg.mpr hr1) hV]

/-- Witness for the amended C8 at viewport half-width 10 and the constant
draw 1/2. -/
theorem spawn_x_bounds_C8_witness :
    (0:ℚ) ≤ 10 ∧
    ∀ pf ∈ (generatePlatforms 10 (fun _ => ((5/10), 0))
        genState).platforms,
      pf ∈ genState.platforms ∨
      (-(9/10 * 10) ≤ pf.posX ∧ pf.posX ≤ 9/10 * 10) :=
  ⟨by norm_num, @spawn_x_bounds_C8 10 (by norm_num) (fun _ => ((5/10), 0))
    (fun n => ⟨by norm_num, by norm_num⟩) genState⟩

/-- C6: while the glitch effect is decaying (active), each tick adds the
fixed time step to the elapsed clock; if the elapsed time reaches
maxDuration the effect becomes idle with all exposed magnitudes exactly
0; otherwise each stored peak magnitude is scaled by
`easeOut = (1 − (elapsed/maxDuration)^1.8) · (0.9 + 0.1·sin(20·progress))`
before being written to the shader uniforms. -/
theorem glitch_decay_C6 {g : Glitch} {u : GlitchUniforms}
    (hact : g.active = true) (hmax : 0 < g.maxDuration) :
    (updateGlitchUniforms g u).1.duration = g.duration + dt ∧
    (g.duration + dt ≥ g.maxDuration →
      (updateGlitchUniforms g u).1.active = false ∧
      (updateGlitchUniforms g u).2.glitchIntensity = 0 ∧
      (updateGlitchUniforms g u).2.digitalNoiseIntensity = 0 ∧
      (updateGlitchUniforms g u).2.rgbShiftIntensity = 0) ∧
    (g.duration + dt < g.maxDuration →
      (updateGlitchUniforms g u).1.active = true ∧
      (updateGlitchUniforms g u).2.glitchIntensity =
        (g.intensity : ℝ) *
          ((1 - (((g.duration + dt) / g.maxDuration : ℚ) : ℝ) ^
              ((18/10 : ℚ) : ℝ)) *
            ((9/10) + (1/10) * Real.sin
              (20 * (((g.duration + dt) / g.maxDuration : ℚ) : ℝ)))) ∧
      (updateGlitchUniforms g u).2.digitalNoiseIntensity =
        (g.digitalNoise : ℝ) *
          ((1 - (((g.duration + dt) / g.maxDuration : ℚ) : ℝ) ^
              ((18/10 : ℚ) : ℝ)) *
            ((9/10) + (1/10) * Real.sin
              (20 * (((g.duration + dt) / g.maxDuration : ℚ) : ℝ)))) ∧
      (updateGlitchUniforms g u).2.rgbShiftIntensity =
        (g.rgbShift : ℝ) *
          ((1 - (((g.duration + dt) / g.maxDuration : ℚ) : ℝ) ^
              ((18/10 : ℚ) : ℝ)) *
            ((9/10) + (1/10) * Real.sin
              (20 * (((g.duration + dt) / g.maxDuration : ℚ) : ℝ))))) := by
  unfold updateGlitchUniforms
  rw [if_pos hact]
  dsimp only
  by_cases hge : (1 : ℚ) ≤ (g.duration + dt) / g.maxDuration
  · rw [if_pos hge]
    refine ⟨rfl, fun _ => ⟨rfl, rfl, rfl, rfl⟩, fun hlt => ?_⟩
    exact absurd ((one_le_div hmax).mp hge) (not_le.mpr hlt)
  · rw [if_neg hge]
    refine ⟨rfl, fun hge2 => ?_, fun _ => ⟨hact, ?_, ?_, ?_⟩⟩
    · exact absurd ((one_le_div hmax).mpr hge2) hge
    all_goals
      unfold glitchEaseOut
      push_cast
      ring_nf

/-- Witness for C6: a decaying envelope one step from completion goes
idle with zero uniforms, and an early envelope keeps decaying with its
clock advanced. -/
theorem glitch_decay_C6_witness :
    (testGlitchActive.duration + dt ≥ testGlitchActive.maxDuration ∧
     (updateGlitchUniforms testGlitchActive testUniforms).1.active = false ∧
     (updateGlitchUniforms testGlitchActive
       testUniforms).2.glitchIntensity = 0) ∧
    (testGlitchEarly.duration + dt < testGlitchEarly.maxDuration ∧
     (updateGlitchUniforms testGlitchEarly testUniforms).1.duration =
       testGlitchEarly.duration + dt ∧
     (updateGlitchUniforms testGlitchEarly testUniforms).1.active = true) := by
  have h1 := @glitch_decay_C6 testGlitchActive testUniforms rfl (by decide)
  have h2 := @glitch_decay_C6 testGlitchEarly testUniforms rfl (by decide)
  have hge : testGlitchActive.duration + dt ≥ testGlitchActive.maxDuration :=
    by decide
  have hlt : testGlitchEarly.duration + dt < testGlitchEarly.maxDuration :=
    by decide
  obtain ⟨-, hcomplete, -⟩ := h1
  obtain ⟨ha, hi, -, -⟩ := hcomplete hge
  obtain ⟨hdur, -, hdecay⟩ := h2
  obtain ⟨hact, -, -, -⟩ := hdecay hlt
  exact ⟨⟨hge, ha, hi⟩, ⟨hlt, hdur, hact⟩⟩

/-! ### The segment-count distribution as a threshold function (C7) -/

/-- For every score, the cube-count draw is a two-valued threshold
function: `lo + 1` below the band's chance threshold, `lo` above. -/
theorem cubeCount_threshold {K : Type*} [LinearOrderedField K] (score : ℕ)
    (r : K) :
    getDifficultyPlatformCubeCount score r =
      if r < ((cubeThreshold score : ℚ) : K) then cubeLo score + 1
      else cubeLo score := by
  unfold getDifficultyPlatformCubeCount cubeThreshold cubeLo
  by_cases h1 : score ≤ 10
  · have h2 : score ≤ 25 := by omega
    simp only [if_pos h1, if_pos h2]
    have hc : ((((8/10) - ((score : ℚ) / 10) * (3/10)) : ℚ) : K) =
        ((8/10) : K) - ((score : K) / 10) * (3/10) := by
      push_cast; ring
    rw [hc]
  · by_cases h2 : score ≤ 25
    · simp only [if_neg h1, if_pos h2]
      have hc : ((((5/10) - (((score : ℚ) - 10) / (25 - 10)) * (4/10)) :
          ℚ) : K) =
          ((5/10) : K) - (((score : K) - 10) / (25 - 10)) * (4/10) := by
        push_cast; ring
      rw [hc]
    · by_cases h3 : score ≤ 40
      · have h6 : score ≤ 60 := by omega
        simp only [if_neg h1, if_neg h2, if_pos h3, if_pos h6]
        have hc : ((((9/10) - (((score : ℚ) - 25) / (40 - 25)) * (4/10)) :
            ℚ) : K) =
            ((9/10) : K) - (((score : K) - 25) / (40 - 25)) * (4/10) := by
          push_cast; ring
        rw [hc]
      · by_cases h4 : score ≤ 60
        · simp only [if_neg h1, if_neg h2, if_neg h3, if_pos h4]
          have hc : ((((5/10) - (((score : ℚ) - 40) / (60 - 40)) * (4/10)) :
              ℚ) : K) =
              ((5/10) : K) - (((score : K) - 40) / (60 - 40)) * (4/10) := by
            push_cast; ring
          rw [hc]
        · by_cases h5 : score ≤ 80
          · simp only [if_neg h1, if_neg h2, if_neg h3, if_neg h4, if_pos h5]
            have hc : ((((9/10) - (((score : ℚ) - 60) / (80 - 60)) * (4/10)) :
                ℚ) : K) =
                ((9/10) : K) - (((score : K) - 60) / (80 - 60)) * (4/10) := by
              push_cast; ring
            rw [hc]
          · simp only [if_neg h1, if_neg h2, if_neg h3, if_neg h4, if_neg h5]
            have hc : ((((5/10) -
                min 1 (((score : ℚ) - 80) / 40) * (3/10)) : ℚ) : K) =
                ((5/10) : K) - min 1 (((score : K) - 80) / 40) * (3/10) := by
              push_cast; ring
            rw [hc]

/-- The band threshold always lies in [0, 1]. -/
theorem cubeThreshold_bounds (score : ℕ) :
    0 ≤ cubeThreshold score ∧ cubeThreshold score ≤ 1 := by
  unfold cubeThreshold
  have hs0 : (0:ℚ) ≤ (score : ℚ) := Nat.cast_nonneg score
  by_cases h1 : score ≤ 10
  · rw [if_pos h1]
    have hub : (score : ℚ) ≤ 10 := by exact_mod_cast h1
    constructor <;> nlinarith
  · rw [if_neg h1]
    by_cases h2 : score ≤ 25
    · rw [if_pos h2]
      have hlb : (11 : ℚ) ≤ (score : ℚ) := by exact_mod_cast by omega
      have hub : (score : ℚ) ≤ 25 := by exact_mod_cast h2
      constructor <;> nlinarith
    · rw [if_neg h2]
      by_cases h3 : score ≤ 40
      · rw [if_pos h3]
        have hlb : (26 : ℚ) ≤ (score : ℚ) := by exact_mod_cast by omega
        have hub : (score : ℚ) ≤ 40 := by exact_mod_cast h3
        constructor <;> nlinarith
      · rw [if_neg h3]
        by_cases h4 : score ≤ 60
        · rw [if_pos h4]
          have hlb : (41 : ℚ) ≤ (score : ℚ) := by exact_mod_cast by omega
          have hub : (score : ℚ) ≤ 60 := by exact_mod_cast h4
          constructor <;> nlinarith
        · rw [if_neg h4]
          by_cases h5 : score ≤ 80
          · rw [if_pos h5]
            have hlb : (61 : ℚ) ≤ (score : ℚ) := by exact_mod_cast by omega
            have hub : (score : ℚ) ≤ 80 := by exact_mod_cast h5
            constructor <;> nlinarith
          · rw [if_neg h5]
            have hlb : (81 : ℚ) ≤ (score : ℚ) := by exact_mod_cast by omega
            have hmin1 : min 1 (((score : ℚ) - 80) / 40) ≤ 1 :=
              min_le_left 1 _
            have hmin0 : 0 ≤ min 1 (((score : ℚ) - 80) / 40) :=
              le_min (by norm_num) (by nlinarith)
            constructor <;> nlinarith

/-- Expectation of a two-valued threshold function over the uniform draw
on [0, 1). -/
theorem integral_threshold_step (c a b : ℝ) (h0 : 0 ≤ c) (h1 : c ≤ 1) :
    ∫ r in Set.Ico (0:ℝ) 1, (if r < c then a else b) =
      c * a + (1 - c) * b := by
  have hfun : (fun r : ℝ => if r < c then a else b) =
      fun r => (Set.Iio c).indicator (fun _ => a - b) r + b := by
    funext r
    by_cases hr : r < c
    · rw [Set.indicator_of_mem (Set.mem_Iio.mpr hr), if_pos hr]
      ring
    · rw [Set.indicator_of_not_mem (fun hmem => hr (Set.mem_Iio.mp hmem)),
        if_neg hr]
      ring
  rw [hfun]
  have hconst : MeasureTheory.IntegrableOn (fun _ : ℝ => a - b)
      (Set.Ico (0:ℝ) 1) :=
    MeasureTheory.integrableOn_const.mpr (Or.inr measure_Ico_lt_top)
  have hint1 : MeasureTheory.IntegrableOn
      ((Set.Iio c).indicator (fun _ => a - b)) (Set.Ico (0:ℝ) 1) :=
    hconst.indicator measurableSet_Iio
  have hint2 : MeasureTheory.IntegrableOn (fun _ : ℝ => b)
      (Set.Ico (0:ℝ) 1) :=
    MeasureTheory.integrableOn_const.mpr (Or.inr measure_Ico_lt_top)
  rw [MeasureTheory.integral_add hint1 hint2,
    MeasureTheory.setIntegral_indicator measurableSet_Iio]
  have hset : Set.Ico (0:ℝ) 1 ∩ Set.Iio c = Set.Ico 0 c := by
    rw [Set.Ico_inter_Iio, min_eq_right h1]
  rw [hset, MeasureTheory.setIntegral_const, MeasureTheory.setIntegral_const,
    Real.volume_Ico, Real.volume_Ico,
    ENNReal.toReal_ofReal (by linarith : (0:ℝ) ≤ c - 0),
    ENNReal.toReal_ofReal (by norm_num : (0:ℝ) ≤ 1 - 0)]
  simp only [smul_eq_mul]
  ring

/-- The expected cube count equals the closed form `lo + threshold`. -/
theorem expectedCubeCount_closed (score : ℕ) :
    expectedCubeCount score = ((cubeCountMean score : ℚ) : ℝ) := by
  unfold expectedCubeCount cubeCountMean
  have hcast : (fun r : ℝ => (getDifficultyPlatformCubeCount score r : ℝ)) =
      fun r => if r < ((cubeThreshold score : ℚ) : ℝ)
        then ((cubeLo score : ℝ) + 1) else (cubeLo score : ℝ) := by
    funext r
    rw [cubeCount_threshold score r]
    split_ifs <;> push_cast <;> ring
  rw [hcast,
    integral_threshold_step _ _ _
      (by exact_mod_cast (cubeThreshold_bounds score).1)
      (by exact_mod_cast (cubeThreshold_bounds score).2)]
  push_cast
  ring

/-- The closed-form mean never increases from one score to the next. -/
theorem cubeCountMean_succ_le (s : ℕ) :
    cubeCountMean (s + 1) ≤ cubeCountMean s := by
  unfold cubeCountMean cubeThreshold cubeLo
  have hs0 : (0:ℚ) ≤ (s:ℚ) := Nat.cast_nonneg s
  by_cases h1 : s + 1 ≤ 10
  · have g1 : s ≤ 10 := by omega
    have g2 : s + 1 ≤ 25 := by omega
    have g3 : s ≤ 25 := by omega
    simp only [if_pos h1, if_pos g1, if_pos g2, if_pos g3]
    push_cast
    linarith
  · by_cases h2 : s + 1 ≤ 25
    · have g1 : ¬ (s + 1 ≤ 10) := h1
      by_cases hs10 : s ≤ 10
      · -- s = 10 crosses from band 1 to band 2
        have hseq : s = 10 := by omega
        subst hseq
        norm_num
      · have g3 : s ≤ 25 := by omega
        simp only [if_neg h1, if_pos h2, if_neg hs10, if_pos g3,
          if_pos (show s + 1 ≤ 25 from h2), if_pos (show s ≤ 25 from g3)]
        push_cast
        linarith
    · by_cases h3 : s + 1 ≤ 40
      · by_cases hs25 : s ≤ 25
        · -- s = 25 crosses from band 2 to band 3
          have hseq : s = 25 := by omega
          subst hseq
          norm_num
        · have g2 : ¬ (s ≤ 10) := by omega
          have g4 : s ≤ 40 := by omega
          have g5 : s ≤ 60 := by omega
          have g6 : s + 1 ≤ 60 := by omega
          simp only [if_neg h1, if_neg h2, if_pos h3, if_neg g2, if_neg hs25,
            if_pos g4, if_pos g5, if_pos g6]
          have hlb : (26 : ℚ) ≤ (s : ℚ) := by exact_mod_cast by omega
          push_cast
          linarith
      · by_cases h4 : s + 1 ≤ 60
        · by_cases hs40 : s ≤ 40
          · -- s = 40 crosses from band 3 to band 4
            have hseq : s = 40 := by omega
            subst hseq
            norm_num
          · have g2 : ¬ (s ≤ 10) := by omega
            have g3 : ¬ (s ≤ 25) := by omega
            have g5 : s ≤ 60 := by omega
            have g6 : s + 1 ≤ 60 := h4
            simp only [if_neg h1, if_neg h2, if_neg h3, if_pos h4, if_neg g2,
              if_neg g3, if_neg hs40, if_pos g5, if_pos g6]
            push_cast
            linarith
        · by_cases h5 : s + 1 ≤ 80
          · by_cases hs60 : s ≤ 60
            · -- s = 60 crosses from band 4 to band 5
              have hseq : s = 60 := by omega
              subst hseq
              norm_num
            · have g2 : ¬ (s ≤ 10) := by omega
              have g3 : ¬ (s ≤ 25) := by omega
              have g4 : ¬ (s ≤ 40) := by omega
              have g7 : s ≤ 80 := by omega
              have g8 : ¬ (s + 1 ≤ 25) := by omega
              have g9 : ¬ (s + 1 ≤ 60) := h4
              simp only [if_neg h1, if_neg h2, if_neg h3, if_neg h4,
                if_pos h5, if_neg g2, if_neg g3, if_neg g4, if_neg hs60,
                if_pos g7]
              push_cast
              linarith
          · by_cases hs80 : s ≤ 80
            · -- s = 80 crosses from band 5 to band 6
              have hseq : s = 80 := by omega
              subst hseq
              norm_num
            · have g2 : ¬ (s ≤ 10) := by omega
              have g3 : ¬ (s ≤ 25) := by omega
              have g4 : ¬ (s ≤ 40) := by omega
              have g5 : ¬ (s ≤ 60) := by omega
              simp only [if_neg h1, if_neg h2, if_neg h3, if_neg h4,
                if_neg h5, if_neg g2, if_neg g3, if_neg g4, if_neg g5,
                if_neg hs80]
              push_cast
              have hmono : min (1:ℚ) (((s : ℚ) - 80) / 40) ≤
                  min 1 (((s : ℚ) + 1 - 80) / 40) :=
                min_le_min le_rfl (by linarith)
              linarith

/-- C7: for every pair of integer scores s1 < s2, the expected segment
count of the score-dependent distribution at s2 — the integral of
getDifficultyPlatformCubeCount over the uniform draw on [0,1) — is no
greater than at s1: the average segment count decreases monotonically
with increasing score in expectation. -/
theorem expected_cube_count_antitone_C7 (s1 s2 : ℕ) (h : s1 < s2) :
    expectedCubeCount s2 ≤ expectedCubeCount s1 := by
  have hanti : Antitone cubeCountMean :=
    antitone_nat_of_succ_le cubeCountMean_succ_le
  rw [expectedCubeCount_closed, expectedCubeCount_closed]
  exact_mod_cast hanti (le_of_lt h)

/-- Witness for C7 at scores 0 < 1. -/
theorem expected_cube_count_antitone_C7_witness :
    (0:ℕ) < 1 ∧ expectedCubeCount 1 ≤ expectedCubeCount 0 :=
  ⟨by norm_num, expected_cube_count_antitone_C7 0 1 (by norm_num)⟩

end RatKernelReduction

end DodledJump
